import Mathlib

/-
Verification of the PrivateTab browser extension's background logic.

The development shallowly embeds the background components of the
extension (src/background/tab-manager.ts, src/background/message-handler.ts,
src/background/crypto.ts, src/shared/utils.ts) as pure Lean functions:

  * the `TabManager` class becomes a state-transition system on
    `TabManagerState` (its `privateTabs` map, its `sessionTimers` map, and
    the set of pending `setTimeout` callbacks);
  * the `MessageHandler` class becomes a function on `HandlerState`,
    with the PBKDF2 primitive of the Web Crypto API abstracted as an
    explicit `derive` function argument (the extension consumes it as a
    black box);
  * base64 encoding/decoding (`arrayBufferToBase64`, `base64ToArrayBuffer`
    from src/shared/utils.ts, i.e. `btoa`/`atob`) is implemented concretely;
  * the glob-to-RegExp translation of `TabManager.isUrlWhitelisted` is
    embedded as the literal sequence of string replacements of the source
    followed by a backtracking matcher for the regular-expression
    constructs those replacements produce.

JavaScript machine integers do not overflow in the relevant ranges
(timestamps, counters); they are modelled as `Nat`.  A JavaScript
`Map<number, T>` is modelled as a function `Nat -> Option T`.
-/

namespace PrivateTabExt

/-- Update one key of a map modelled as a function `Nat → Option α`. -/
def fset {α : Type} (m : Nat → Option α) (k : Nat) (v : Option α) : Nat → Option α :=
  fun k' => if k' = k then v else m k'

/-! ## Base64 (src/shared/utils.ts)

`arrayBufferToBase64` builds a latin-1 string from the bytes and calls
`btoa`; `base64ToArrayBuffer` calls `atob` and rebuilds the byte array.
Bytes are modelled as `Nat` values below 256.  `atob` failure (malformed
base64) is modelled by `Option`. -/

/-- The base64 alphabet, as a list of characters. -/
def base64Alphabet : List Char :=
  "ABCDEFGHIJKLMNOPQRSTUVWXYZabcdefghijklmnopqrstuvwxyz0123456789+/".toList

/-- Character for a 6-bit group. -/
def b64Char (n : Nat) : Char :=
  base64Alphabet.getD n 'A'

/-- Value of a base64 character, or `none` if it is not in the alphabet
(`atob` raises `InvalidCharacterError` in that case). -/
def b64Value (c : Char) : Option Nat :=
  List.indexOf? c base64Alphabet

/-- Encode a byte list in base64, three bytes to four characters, with
trailing `=` padding, exactly as `btoa` does. -/
def b64Encode : List Nat → List Char
  | [] => []
  | [b1] => [b64Char (b1 / 4), b64Char (b1 % 4 * 16), '=', '=']
  | [b1, b2] => [b64Char (b1 / 4), b64Char (b1 % 4 * 16 + b2 / 16), b64Char (b2 % 16 * 4), '=']
  | b1 :: b2 :: b3 :: rest =>
      b64Char (b1 / 4) :: b64Char (b1 % 4 * 16 + b2 / 16) ::
      b64Char (b2 % 16 * 4 + b3 / 64) :: b64Char (b3 % 64) ::
      b64Encode rest

/-- Embedding of `arrayBufferToBase64` (src/shared/utils.ts). -/
def arrayBufferToBase64 (bytes : List Nat) : String :=
  String.mk (b64Encode bytes)

/-- Decode a padding-stripped base64 character sequence.  A leftover
length of 1 is invalid, as in `atob`. -/
def b64Decode : List Char → Option (List Nat)
  | [] => some []
  | [_] => none
  | [c1, c2] => do
      let n1 ← b64Value c1
      let n2 ← b64Value c2
      pure [n1 * 4 + n2 / 16]
  | [c1, c2, c3] => do
      let n1 ← b64Value c1
      let n2 ← b64Value c2
      let n3 ← b64Value c3
      pure [n1 * 4 + n2 / 16, n2 % 16 * 16 + n3 / 4]
  | c1 :: c2 :: c3 :: c4 :: rest => do
      let n1 ← b64Value c1
      let n2 ← b64Value c2
      let n3 ← b64Value c3
      let n4 ← b64Value c4
      let tail ← b64Decode rest
      pure ((n1 * 4 + n2 / 16) :: (n2 % 16 * 16 + n3 / 4) :: (n3 % 4 * 64 + n4) :: tail)

/-- Strip up to two trailing `=` characters when the length is a multiple
of four (the forgiving-base64 step of `atob`). -/
def b64StripPadding (cs : List Char) : List Char :=
  if cs.length % 4 = 0 then
    match cs.reverse with
    | '=' :: '=' :: rest => rest.reverse
    | '=' :: rest => rest.reverse
    | _ => cs
  else cs

/-- Embedding of `base64ToArrayBuffer` (src/shared/utils.ts): `atob`,
returning `none` where `atob` throws. -/
def base64ToArrayBuffer (s : String) : Option (List Nat) :=
  b64Decode (b64StripPadding s.toList)

/-! ## CryptoService (src/background/crypto.ts)

PBKDF2-HMAC-SHA256 itself is out of scope (a Web Crypto primitive); it is
abstracted as an argument
`derive : String → List Nat → Nat → Option (List Nat)`
mapping password, salt bytes and iteration count to the derived 256-bit
key bytes, with `none` modelling a rejected crypto call. -/

/-- Result record of `CryptoService.hashPassword`. -/
structure HashedPassword where
  hash : String
  salt : String
  iterations : Nat
deriving DecidableEq, Repr

/-- SECURITY.PBKDF2_ITERATIONS (src/shared/constants.ts). -/
def PBKDF2_ITERATIONS : Nat := 100000

namespace CryptoService

/-- Embedding of `CryptoService.hashPassword`: derives with the fixed
iteration constant and base64-encodes hash and salt.  `none` models a
thrown crypto error. -/
def hashPassword (derive : String → List Nat → Nat → Option (List Nat))
    (password : String) (salt : List Nat) : Option HashedPassword :=
  match derive password salt PBKDF2_ITERATIONS with
  | none => none
  | some bits =>
      some { hash := arrayBufferToBase64 bits
             salt := arrayBufferToBase64 salt
             iterations := PBKDF2_ITERATIONS }

/-- Embedding of `CryptoService.verifyPassword`: decodes the stored salt,
re-hashes with `hashPassword` (whose iteration count is the fixed
constant; the `iterations` argument of the source is the unused
`_iterations`), and compares the encoded hash.  Every failure inside the
`try` block yields `false`. -/
def verifyPassword (derive : String → List Nat → Nat → Option (List Nat))
    (password storedHash storedSalt : String) (iterations : Nat) : Bool :=
  match base64ToArrayBuffer storedSalt with
  | none => false
  | some salt =>
      match hashPassword derive password salt with
      | none => false
      | some r => r.hash == storedHash

/-- Modelled from the spec (refinement comparison only, not from the
source): a verifier that re-derives "using the stored salt/iteration
count", i.e. with the `iterations` argument actually passed on to the
key-derivation primitive. -/
def verifyPasswordSpecModel (derive : String → List Nat → Nat → Option (List Nat))
    (password storedHash storedSalt : String) (iterations : Nat) : Bool :=
  match base64ToArrayBuffer storedSalt with
  | none => false
  | some salt =>
      match derive password salt iterations with
      | none => false
      | some bits => arrayBufferToBase64 bits == storedHash

/-- Result record of `CryptoService.validatePassword`. -/
structure ValidationResult where
  valid : Bool
  error : Option String
deriving DecidableEq, Repr

/-- SECURITY.PASSWORD_MIN_LENGTH (src/shared/constants.ts). -/
def PASSWORD_MIN_LENGTH : Nat := 1

/-- Embedding of `CryptoService.validatePassword`. -/
def validatePassword (password : String) : ValidationResult :=
  if password.length < PASSWORD_MIN_LENGTH then
    { valid := false, error := some "Password must be at least 1 characters" }
  else if password.length > 128 then
    { valid := false, error := some "Password is too long" }
  else
    { valid := true, error := none }

end CryptoService

/-! ## Whitelist glob matching (TabManager.isUrlWhitelisted)

The source converts each glob pattern to a regular expression by four
global string replacements, then matches the URL against
`new RegExp('^' + converted + '$', 'i')` inside a try/catch (an invalid
regular expression makes the pattern non-matching).

The four replacements are embedded literally below.  The JavaScript
regular-expression engine is embedded by a parser into atom/quantifier
pairs followed by a backtracking matcher.  The parser covers exactly the
constructs that can occur in converted patterns handled by the theorems
below (escaped characters, the `[^/]` class, `.`, literals, and the
`*`/`+` quantifiers); every other metacharacter makes it return `none`,
and the theorems below never evaluate the matcher outside this subset. -/

/-- Regular-expression atoms produced by the glob conversion. -/
inductive RAtom
  | lit (c : Char)
  | anyChar
  | nonSlash
deriving DecidableEq, Repr

/-- Quantifier on an atom. -/
inductive RQuant
  | one
  | star
  | plus
deriving DecidableEq, Repr

/-- JavaScript line terminators, which `.` does not match (no `s` flag). -/
def isLineTerm (c : Char) : Bool :=
  c == '\n' || c == '\r' || c == Char.ofNat 0x2028 || c == Char.ofNat 0x2029

/-- Does an atom match one character, under the `i` flag? -/
def atomMatches : RAtom → Char → Bool
  | .lit c, d => c.toLower == d.toLower
  | .anyChar, d => !isLineTerm d
  | .nonSlash, d => d != '/'

/-- Backtracking matcher, anchored at both ends (the source wraps the
converted pattern in `^...$`). -/
def rmatch : List (RAtom × RQuant) → List Char → Bool
  | [], [] => true
  | [], _ :: _ => false
  | (_, .one) :: _, [] => false
  | (a, .one) :: rest, c :: s => atomMatches a c && rmatch rest s
  | (a, .star) :: rest, s =>
      rmatch rest s ||
        match s with
        | [] => false
        | c :: s' => atomMatches a c && rmatch ((a, .star) :: rest) s'
  | (_, .plus) :: _, [] => false
  | (a, .plus) :: rest, c :: s => atomMatches a c && rmatch ((a, .star) :: rest) s
  termination_by atoms s => (s.length, atoms.length)

/-- Metacharacters outside the embedded regular-expression subset: a
converted pattern containing one of these unhandled is not matched by the
theorems below (`(`, `)` and lone quantifiers are also invalid in
JavaScript and hit the catch branch). -/
def regexMeta (c : Char) : Bool :=
  c == '\\' || c == '[' || c == ']' || c == '(' || c == ')' ||
  c == '{' || c == '}' || c == '^' || c == '$' || c == '|' ||
  c == '?' || c == '*' || c == '+' || c == '.'

/-- One regular-expression atom at the head of a converted pattern:
an escaped literal, the class `[^/]`, `.`, or a plain non-metacharacter
literal, together with the remaining characters. -/
def atomAt : List Char → Option (RAtom × List Char)
  | [] => none
  | c :: rest =>
      if c == '\\' then
        match rest with
        | [] => none
        | d :: rest2 => some (RAtom.lit d, rest2)
      else if c == '[' then
        match rest with
        | d1 :: d2 :: d3 :: rest2 =>
            if d1 == '^' && d2 == '/' && d3 == ']' then some (RAtom.nonSlash, rest2) else none
        | _ => none
      else if c == '.' then some (RAtom.anyChar, rest)
      else if regexMeta c then none
      else some (RAtom.lit c, rest)

/-- An optional `*` or `+` quantifier at the head, with the remaining
characters. -/
def quantAt : List Char → RQuant × List Char
  | [] => (RQuant.one, [])
  | r :: rest =>
      if r == '*' then (RQuant.star, rest)
      else if r == '+' then (RQuant.plus, rest)
      else (RQuant.one, r :: rest)

/-- Parse a converted pattern into atom/quantifier pairs.  The fuel
argument only drives the recursion; every step consumes at least one
character, so `parseRegex` below supplies the pattern length. -/
def parseRegexF : Nat → List Char → Option (List (RAtom × RQuant))
  | _, [] => some []
  | 0, _ :: _ => none
  | fuel + 1, c :: rest =>
      match atomAt (c :: rest) with
      | none => none
      | some (a, rem) =>
          match quantAt rem with
          | (q, rem2) => (fun as => (a, q) :: as) <$> parseRegexF fuel rem2

/-- Parse a converted pattern into atom/quantifier pairs. -/
def parseRegex (l : List Char) : Option (List (RAtom × RQuant)) :=
  parseRegexF l.length l

/-- First replacement of the source: `.replace(/\./g, '\\.')`. -/
def replaceDots : List Char → List Char
  | [] => []
  | '.' :: rest => '\\' :: '.' :: replaceDots rest
  | c :: rest => c :: replaceDots rest

/-- The `___DOUBLE_STAR___` placeholder of the source. -/
def doubleStarPlaceholder : List Char := "___DOUBLE_STAR___".toList

/-- Second replacement: `.replace(/\*\*/g, '___DOUBLE_STAR___')`, global
and left-to-right as in JavaScript. -/
def replaceDoubleStar : List Char → List Char
  | '*' :: '*' :: rest => doubleStarPlaceholder ++ replaceDoubleStar rest
  | c :: rest => c :: replaceDoubleStar rest
  | [] => []

/-- Third replacement: `.replace(/\*/g, '[^/]*')`. -/
def replaceStar : List Char → List Char
  | [] => []
  | '*' :: rest => '[' :: '^' :: '/' :: ']' :: '*' :: replaceStar rest
  | c :: rest => c :: replaceStar rest

/-- Fourth replacement: `.replace(/___DOUBLE_STAR___/g, '.*')`. -/
def replacePlaceholder : List Char → List Char
  | [] => []
  | c :: rest =>
      if doubleStarPlaceholder.isPrefixOf (c :: rest) then
        '.' :: '*' :: replacePlaceholder (List.drop 16 rest)
      else c :: replacePlaceholder rest
  termination_by l => l.length
  decreasing_by
    · simp only [List.length_drop, List.length_cons]; omega
    · simp

/-- The complete glob-to-regex conversion of the source. -/
def convertGlob (pattern : List Char) : List Char :=
  replacePlaceholder (replaceStar (replaceDoubleStar (replaceDots pattern)))

/-- Behaviour of `new RegExp(...).test(url)` together with the catch
branch: an unparsable converted pattern matches nothing. -/
def jsRegexTest (regexChars : List Char) (url : String) : Bool :=
  match parseRegex regexChars with
  | none => false
  | some atoms => rmatch atoms url.toList

/-- Embedding of `TabManager.isUrlWhitelisted`. -/
def isUrlWhitelisted (url : String) (patterns : List String) : Bool :=
  if url == "" || patterns.isEmpty then false
  else patterns.any fun pattern => jsRegexTest (convertGlob pattern.toList) url

/-- Modelled from the spec's words (refinement comparison only, not from
the source): direct glob semantics in which `**` matches any run of
characters, `*` matches any run of characters other than `/`, and every
other pattern character matches itself case-insensitively, the whole
pattern against the whole string. -/
def globSpecMatch : List Char → List Char → Bool
  | [], [] => true
  | [], _ :: _ => false
  | '*' :: '*' :: p, s =>
      globSpecMatch p s ||
        match s with
        | [] => false
        | _ :: s' => globSpecMatch ('*' :: '*' :: p) s'
  | '*' :: p, s =>
      globSpecMatch p s ||
        match s with
        | [] => false
        | c :: s' => c != '/' && globSpecMatch ('*' :: p) s'
  | _ :: _, [] => false
  | c :: p, d :: s => c.toLower == d.toLower && globSpecMatch p s
  termination_by p s => (s.length, p.length)

/-- Spec-words whitelist matcher on strings. -/
def globSpecMatches (url pattern : String) : Bool :=
  globSpecMatch pattern.toList url.toList

/-- Pattern characters on which the conversion is faithful to the glob
semantics: every character that is not a regular-expression metacharacter
other than `.` and `*`, and is not the placeholder-alphabet character
`_`. -/
def okPatternChar (c : Char) : Bool :=
  (!regexMeta c || c == '.' || c == '*') && c != '_'

/-- Direct glob-to-regex translation: what the four replacements of
`convertGlob` produce on a pattern of `okPatternChar` characters (proved
below). -/
def regexStr : List Char → List Char
  | [] => []
  | '*' :: '*' :: p => '.' :: '*' :: regexStr p
  | '*' :: p => '[' :: '^' :: '/' :: ']' :: '*' :: regexStr p
  | '.' :: p => '\\' :: '.' :: regexStr p
  | c :: p => c :: regexStr p

/-- The atom/quantifier pairs the converted pattern denotes. -/
def globAtoms : List Char → List (RAtom × RQuant)
  | [] => []
  | '*' :: '*' :: p => (RAtom.anyChar, RQuant.star) :: globAtoms p
  | '*' :: p => (RAtom.nonSlash, RQuant.star) :: globAtoms p
  | c :: p => (RAtom.lit c, RQuant.one) :: globAtoms p

/-- Does the head of a character list not start a quantifier? -/
def headNotQuant : List Char → Bool
  | [] => true
  | c :: _ => !(c == '*' || c == '+')

/-! ## Data model (src/shared/types, src/shared/constants.ts)

The `Settings` shape is the one the background code reads
(`incognitoMode`, `privateMode`, `whitelistedUrls`, `autoLockTimeout`,
`lockOnTabSwitch`, `showNotifications`) together with the
`lockingEnabled` master switch that the settings storage carries; the
engine under `src/background` never reads `lockingEnabled`. -/

/-- The `PrivateTab` record (src/shared/types).  `lastUnlocked?` is an
optional timestamp. -/
structure PrivateTab where
  id : Nat
  url : String
  title : String
  isLocked : Bool
  markedAt : Nat
  lastUnlocked : Option Nat
deriving DecidableEq, Repr

/-- Incognito handling mode. -/
inductive IncognitoMode
  | disabled
  | alwaysLock
  | normal
deriving DecidableEq, Repr

/-- Extension settings as read by the background code. -/
structure Settings where
  lockingEnabled : Bool
  autoLockTimeout : Nat
  lockOnTabSwitch : Bool
  showNotifications : Bool
  incognitoMode : IncognitoMode
  privateMode : Bool
  whitelistedUrls : List String
deriving DecidableEq, Repr

/-- Metadata of a browser tab as returned by `chrome.tabs.get`;
`url`/`title` are optional in the `chrome.tabs.Tab` type. -/
structure ChromeTab where
  url : Option String
  title : Option String
  incognito : Bool
deriving DecidableEq, Repr

/-- Environment of one engine operation: the settings snapshot served by
the storage manager, the `chrome.tabs.get` oracle (`none` models a
rejected lookup of a closed tab), and `Date.now()`. -/
structure Env where
  settings : Settings
  tabs : Nat → Option ChromeTab
  now : Nat

/-- JavaScript `a || b` on an optional string: `undefined` and the empty
string both fall back to the default. -/
def jsOr (o : Option String) (d : String) : String :=
  match o with
  | some s => if s = "" then d else s
  | none => d

/-- JavaScript truthiness of an optional number (`undefined` and `0` are
falsy). -/
def truthyTime : Option Nat → Bool
  | some t => t != 0
  | none => false

/-! ## TabManager (src/background/tab-manager.ts)

State of the `TabManager` class: the in-memory `privateTabs` map, the
`sessionTimers` map from tab id to `setTimeout` handle, the multiset of
scheduled `setTimeout` callbacks still pending (handle and captured tab
id), the handle counter, and the persisted `privateTabs` snapshot held by
the storage manager.  Methods become functions `TabManagerState → ...`;
`chrome.tabs.sendMessage`, notifications and console logging have no
engine-state effect and are omitted. -/

structure TabManagerState where
  privateTabs : Nat → Option PrivateTab
  sessionTimers : Nat → Option Nat
  pendingTimers : List (Nat × Nat)
  nextTimerId : Nat
  saved : Nat → Option PrivateTab

/-- Initial state: empty registry, no timers, empty storage. -/
def initState : TabManagerState :=
  { privateTabs := fun _ => none
    sessionTimers := fun _ => none
    pendingTimers := []
    nextTimerId := 0
    saved := fun _ => none }

/-- Embedding of `clearSessionTimer`: `clearTimeout` removes the pending
callback with the stored handle, and the handle is deleted. -/
def clearSessionTimer (s : TabManagerState) (tabId : Nat) : TabManagerState :=
  match s.sessionTimers tabId with
  | some timerId =>
      { s with pendingTimers := s.pendingTimers.filter (fun p => p.1 ≠ timerId)
               sessionTimers := fset s.sessionTimers tabId none }
  | none => s

/-- Embedding of `savePrivateTabs`: the whole in-memory map replaces the
persisted snapshot (`StorageManager.savePrivateTabs` writes the record
wholesale to its storage key). -/
def savePrivateTabs (s : TabManagerState) : TabManagerState :=
  { s with saved := s.privateTabs }

/-- Embedding of `lockTab`: no-op without a record; otherwise sets
`isLocked`, clears the session timer, deletes a truthy `lastUnlocked`,
persists, and messages the content script (state-free). -/
def lockTab (s : TabManagerState) (tabId : Nat) : TabManagerState :=
  match s.privateTabs tabId with
  | none => s
  | some pt =>
      let pt1 := { pt with isLocked := true }
      let s1 := { s with privateTabs := fset s.privateTabs tabId (some pt1) }
      let s2 := clearSessionTimer s1 tabId
      let pt2 := if truthyTime pt1.lastUnlocked then { pt1 with lastUnlocked := none } else pt1
      let s3 := { s2 with privateTabs := fset s2.privateTabs tabId (some pt2) }
      savePrivateTabs s3

/-- Embedding of `isUrlWhitelisted`-based `shouldPreventAutoLock`: private
mode, whitelisted URL, or an incognito tab under `disabled`/`always-lock`
prevent auto-locking; a failed `chrome.tabs.get` is caught and falls
through to `false`. -/
def shouldPreventAutoLock (s : TabManagerState) (tabId : Nat) (env : Env) : Bool :=
  match s.privateTabs tabId with
  | none => false
  | some pt =>
      if env.settings.privateMode then true
      else if isUrlWhitelisted pt.url env.settings.whitelistedUrls then true
      else
        match env.tabs tabId with
        | some tab =>
            if tab.incognito then
              match env.settings.incognitoMode with
              | .disabled => true
              | .alwaysLock => true
              | .normal => false
            else false
        | none => false

/-- Embedding of `startSessionTimer`: always cancels the existing timer
first; starts none when `autoLockTimeout` is `0` or auto-locking is
prevented; otherwise schedules a fresh one-shot callback and stores its
handle. -/
def startSessionTimer (s : TabManagerState) (tabId : Nat) (env : Env) : TabManagerState :=
  let s1 := clearSessionTimer s tabId
  if env.settings.autoLockTimeout = 0 then s1
  else if shouldPreventAutoLock s1 tabId env then s1
  else
    { s1 with pendingTimers := (s1.nextTimerId, tabId) :: s1.pendingTimers
              sessionTimers := fset s1.sessionTimers tabId (some s1.nextTimerId)
              nextTimerId := s1.nextTimerId + 1 }

/-- Body of the scheduled session-timeout callback for one tab: re-checks
that the record exists and is unlocked before calling `lockTab`,
optionally shows a notification (state-free), and finally deletes its
`sessionTimers` entry. -/
def fireTimerBody (s : TabManagerState) (tabId : Nat) : TabManagerState :=
  let s2 :=
    match s.privateTabs tabId with
    | some pt => if pt.isLocked then s else lockTab s tabId
    | none => s
  { s2 with sessionTimers := fset s2.sessionTimers tabId none }

/-- Firing of a scheduled session-timeout callback.  A cancelled handle is
no longer pending and cannot fire; firing consumes the one-shot callback
and then runs its body. -/
def fireTimer (s : TabManagerState) (timerId : Nat) : TabManagerState :=
  match s.pendingTimers.find? (fun p => p.1 = timerId) with
  | none => s
  | some p =>
      fireTimerBody
        { s with pendingTimers := s.pendingTimers.filter (fun q => q.1 ≠ timerId) } p.2

/-- Embedding of `unlockTab`: no-op without a record; otherwise clears
`isLocked`, stamps `lastUnlocked`, persists, and starts the session
timer. -/
def unlockTab (s : TabManagerState) (tabId : Nat) (env : Env) : TabManagerState :=
  match s.privateTabs tabId with
  | none => s
  | some pt =>
      let pt1 := { pt with isLocked := false, lastUnlocked := some env.now }
      let s1 := { s with privateTabs := fset s.privateTabs tabId (some pt1) }
      let s2 := savePrivateTabs s1
      startSessionTimer s2 tabId env

/-- Embedding of `toggleTabPrivate`.  Marking looks the tab up (a rejected
lookup propagates as an exception, leaving the state unchanged), rejects
incognito tabs under `incognitoMode == disabled` by throwing, then inserts
a locked record and calls `lockTab`; unmarking clears the timer, messages
the content script (state-free), and deletes the record.  Both branches
persist. -/
def toggleTabPrivate (s : TabManagerState) (tabId : Nat) (isPrivate : Bool) (env : Env) :
    Except String TabManagerState :=
  if isPrivate then
    match env.tabs tabId with
    | none => .error "Tab not found"
    | some tab =>
        if tab.incognito && env.settings.incognitoMode == IncognitoMode.disabled then
          .error "Cannot mark incognito tabs as private when incognito mode is disabled"
        else
          let pt : PrivateTab :=
            { id := tabId
              url := jsOr tab.url ""
              title := jsOr tab.title "Untitled"
              isLocked := true
              markedAt := env.now
              lastUnlocked := none }
          let s1 := { s with privateTabs := fset s.privateTabs tabId (some pt) }
          let s2 := lockTab s1 tabId
          .ok (savePrivateTabs s2)
  else
    let s1 := clearSessionTimer s tabId
    let s2 := { s1 with privateTabs := fset s1.privateTabs tabId none }
    .ok (savePrivateTabs s2)

/-- State effect of `toggleTabPrivate` alone: a thrown exception leaves
the engine state unchanged (both throw sites precede any mutation). -/
def toggleTabPrivateRun (s : TabManagerState) (tabId : Nat) (isPrivate : Bool) (env : Env) :
    TabManagerState :=
  match toggleTabPrivate s tabId isPrivate env with
  | .ok s' => s'
  | .error _ => s

/-- Embedding of `handleTabActivated`: a private, currently unlocked tab
is locked when `lockOnTabSwitch` is enabled. -/
def handleTabActivated (s : TabManagerState) (tabId : Nat) (env : Env) : TabManagerState :=
  match s.privateTabs tabId with
  | some pt =>
      if !pt.isLocked && env.settings.lockOnTabSwitch then lockTab s tabId else s
  | none => s

/-- Embedding of `handleTabRemoved`: drop the record, persist, clear the
timer. -/
def handleTabRemoved (s : TabManagerState) (tabId : Nat) : TabManagerState :=
  match s.privateTabs tabId with
  | some _ =>
      let s1 := { s with privateTabs := fset s.privateTabs tabId none }
      let s2 := savePrivateTabs s1
      clearSessionTimer s2 tabId
  | none => s

/-- Embedding of `handleTabUpdated`: refresh `url`/`title` (JavaScript
`||` keeps the old value on `undefined` or empty), persist, and re-assert
the lock when the record is locked. -/
def handleTabUpdated (s : TabManagerState) (tabId : Nat) (tab : ChromeTab) : TabManagerState :=
  match s.privateTabs tabId with
  | none => s
  | some pt =>
      let pt1 := { pt with url := jsOr tab.url pt.url, title := jsOr tab.title pt.title }
      let s1 := { s with privateTabs := fset s.privateTabs tabId (some pt1) }
      let s2 := savePrivateTabs s1
      if pt1.isLocked then lockTab s2 tabId else s2

/-- One engine event: the operations named by the specification's
invariants, plus the firing of a scheduled session-timeout callback. -/
inductive TMOp
  | toggle (tabId : Nat) (isPrivate : Bool) (env : Env)
  | lock (tabId : Nat) (env : Env)
  | unlock (tabId : Nat) (env : Env)
  | activated (tabId : Nat) (env : Env)
  | updated (tabId : Nat) (tab : ChromeTab) (env : Env)
  | removed (tabId : Nat) (env : Env)
  | fire (timerId : Nat) (env : Env)

/-- Environment carried by an operation. -/
def TMOp.env : TMOp → Env
  | .toggle _ _ e => e
  | .lock _ e => e
  | .unlock _ e => e
  | .activated _ e => e
  | .updated _ _ e => e
  | .removed _ e => e
  | .fire _ e => e

/-- Apply one operation. -/
def step (s : TabManagerState) : TMOp → TabManagerState
  | .toggle tabId isPrivate env => toggleTabPrivateRun s tabId isPrivate env
  | .lock tabId _ => lockTab s tabId
  | .unlock tabId env => unlockTab s tabId env
  | .activated tabId env => handleTabActivated s tabId env
  | .updated tabId tab _ => handleTabUpdated s tabId tab
  | .removed tabId _ => handleTabRemoved s tabId
  | .fire timerId _ => fireTimer s timerId

/-- Run a sequence of operations from a state. -/
def run (s : TabManagerState) (ops : List TMOp) : TabManagerState :=
  ops.foldl step s

/-! ## StorageManager (src/CHANGELOG.md, `StorageManager` class) and
MessageHandler (src/background/message-handler.ts)

The handler owns the per-tab `passwordAttempts` map and calls the storage
manager for the credential.  The storage manager operations the handler
uses - `getMasterPasswordHash`, `saveMasterPasswordHash`,
`hasMasterPassword` - are embedded below over the `chrome.storage.local`
slice they touch. -/

/-- Per-tab failed-attempt counter of the handler. -/
structure AttemptInfo where
  count : Nat
  lastAttempt : Nat
deriving DecidableEq, Repr

/-- The `chrome.storage.local` slice behind the storage manager
operations the message handler calls: the
`STORAGE_KEYS.MASTER_PASSWORD_HASH` entry, either absent or holding a
stored credential. -/
structure LocalStorage where
  masterPasswordHash : Option HashedPassword
deriving DecidableEq, Repr

namespace StorageManager

/-- Embedding of `StorageManager.getMasterPasswordHash`:
`result[STORAGE_KEYS.MASTER_PASSWORD_HASH] || null` - a missing key reads
back as `null`, and a stored credential object is truthy, so the `||`
passes it through unchanged. -/
def getMasterPasswordHash (s : LocalStorage) : Option HashedPassword :=
  s.masterPasswordHash

/-- Embedding of `StorageManager.saveMasterPasswordHash`. -/
def saveMasterPasswordHash (s : LocalStorage) (hash : HashedPassword) : LocalStorage :=
  { s with masterPasswordHash := some hash }

/-- Embedding of `StorageManager.hasMasterPassword`:
`(await this.getMasterPasswordHash()) !== null`. -/
def hasMasterPassword (s : LocalStorage) : Bool :=
  (getMasterPasswordHash s).isSome

end StorageManager

/-- Combined handler state: the per-tab attempt counters the handler
owns, the `chrome.storage.local` contents behind the storage manager, and
the tab manager it drives. -/
structure HandlerState where
  passwordAttempts : Nat → Option AttemptInfo
  storage : LocalStorage
  tm : TabManagerState

/-- SECURITY.MAX_PASSWORD_ATTEMPTS. -/
def MAX_PASSWORD_ATTEMPTS : Nat := 5

/-- SECURITY.LOCKOUT_DURATION_MS (five minutes). -/
def LOCKOUT_DURATION_MS : Nat := 300000

/-- Result shape of `handleVerifyPassword`: success flag and optional
`attempts` field. -/
structure VerifyResult where
  success : Bool
  attempts : Option Nat
deriving DecidableEq, Repr

/-- Embedding of `MessageHandler.handleVerifyPassword`.  The third result
component records whether `CryptoService.verifyPassword` was invoked
(`false` on the rate-limited and missing-credential early returns). -/
def handleVerifyPassword (derive : String → List Nat → Nat → Option (List Nat))
    (st : HandlerState) (password : String) (tabId : Nat) (env : Env) :
    VerifyResult × HandlerState × Bool :=
  let attempts := (st.passwordAttempts tabId).getD { count := 0, lastAttempt := 0 }
  if attempts.count ≥ MAX_PASSWORD_ATTEMPTS ∧ env.now - attempts.lastAttempt < LOCKOUT_DURATION_MS then
    ({ success := false, attempts := some attempts.count }, st, false)
  else
    match StorageManager.getMasterPasswordHash st.storage with
    | none => ({ success := false, attempts := none }, st, false)
    | some stored =>
        let isValid :=
          CryptoService.verifyPassword derive password stored.hash stored.salt stored.iterations
        if isValid then
          ({ success := true, attempts := none },
           { st with passwordAttempts := fset st.passwordAttempts tabId none,
                     tm := unlockTab st.tm tabId env },
           true)
        else
          ({ success := false, attempts := some (attempts.count + 1) },
           { st with passwordAttempts := fset st.passwordAttempts tabId (some { count := attempts.count + 1, lastAttempt := env.now }) },
           true)

/-- Embedding of `MessageHandler.handleSetMasterPassword`; the salt that
`generateSalt` would draw is an explicit argument, and a `none` from the
crypto primitive models the thrown error that the `handleMessage` catch
converts. -/
def handleSetMasterPassword (derive : String → List Nat → Nat → Option (List Nat))
    (st : HandlerState) (password : String) (salt : List Nat) :
    (Bool × Option String) × HandlerState :=
  if StorageManager.hasMasterPassword st.storage then
    ((false, some "Master password already set"), st)
  else
    let validation := CryptoService.validatePassword password
    if !validation.valid then ((false, validation.error), st)
    else
      match CryptoService.hashPassword derive password salt with
      | none => ((false, some "hash error"), st)
      | some h =>
          ((true, none), { st with storage := StorageManager.saveMasterPasswordHash st.storage h })

/-- Embedding of `MessageHandler.handleVerifyMasterPassword` (settings
access verification; no state change). -/
def handleVerifyMasterPassword (derive : String → List Nat → Nat → Option (List Nat))
    (st : HandlerState) (password : String) : Bool :=
  match StorageManager.getMasterPasswordHash st.storage with
  | none => false
  | some stored =>
      CryptoService.verifyPassword derive password stored.hash stored.salt stored.iterations

/-- Embedding of `MessageHandler.handleChangeMasterPassword`. -/
def handleChangeMasterPassword (derive : String → List Nat → Nat → Option (List Nat))
    (st : HandlerState) (currentPassword newPassword : String) (salt : List Nat) :
    (Bool × Option String) × HandlerState :=
  if !handleVerifyMasterPassword derive st currentPassword then
    ((false, some "Current password is incorrect"), st)
  else
    let validation := CryptoService.validatePassword newPassword
    if !validation.valid then ((false, validation.error), st)
    else
      match CryptoService.hashPassword derive newPassword salt with
      | none => ((false, some "hash error"), st)
      | some h =>
          ((true, none), { st with storage := StorageManager.saveMasterPasswordHash st.storage h })

/-- Tab reference inside a message sender (`sender.tab`, whose `id` is
optional). -/
structure SenderTab where
  id : Option Nat
deriving DecidableEq, Repr

/-- The `chrome.runtime.MessageSender` fields the handler reads. -/
structure MessageSender where
  id : Option String
  url : Option String
  tab : Option SenderTab
  frameId : Option Nat
deriving DecidableEq, Repr

/-- JavaScript `String.prototype.startsWith`, computably on character
lists. -/
def strStartsWith (s p : String) : Bool :=
  p.toList.isPrefixOf s.toList

/-- Embedding of `MessageHandler.isValidMessageSource`. -/
def isValidMessageSource (runtimeId : String) (sender : MessageSender) : Bool :=
  if sender.id != some runtimeId then false
  else if strStartsWith (sender.url.getD "") ("chrome-extension://" ++ runtimeId) then true
  else if sender.tab.isSome && (sender.frameId == some 0 || sender.frameId == none) then true
  else false

/-- The inbound message types exercised by the claims (the remaining
cases of the source's switch only read state or are key-enumerating
fan-outs). -/
inductive ExtMessage
  | verifyPassword (password : String)
  | setMasterPassword (password : String)
  | verifyMasterPassword (password : String)
  | changeMasterPassword (currentPassword newPassword : String)
  | markTabPrivate (tabId : Nat) (isPrivate : Bool)
  | unknown
deriving DecidableEq, Repr

/-- Shapes of the objects the handler returns. -/
inductive Response
  | verify (r : VerifyResult)
  | result (success : Bool) (error : Option String)
  | errorResp (message : String)
deriving DecidableEq, Repr

/-- Response shape for the set/change password results: a crypto failure
is the thrown exception that the `handleMessage` catch converts into an
error object; the other outcomes are the structured results. -/
def credResponse (r : Bool × Option String) : Response :=
  if r.1 then .result true none
  else if r.2 = some "hash error" then .errorResp "hash error"
  else .result false r.2

/-- Embedding of `MessageHandler.handleMessage` on the embedded message
types: source validation, dispatch, and the catch that converts a thrown
exception into an error response.  The final component again records
whether the credential verifier ran. -/
def handleMessage (derive : String → List Nat → Nat → Option (List Nat))
    (runtimeId : String) (st : HandlerState) (msg : ExtMessage)
    (sender : MessageSender) (salt : List Nat) (env : Env) :
    Response × HandlerState × Bool :=
  if !isValidMessageSource runtimeId sender then
    (.errorResp "Invalid message source", st, false)
  else
    match msg with
    | .verifyPassword password =>
        match sender.tab with
        | some { id := some tabId } =>
            (.verify (handleVerifyPassword derive st password tabId env).1,
             (handleVerifyPassword derive st password tabId env).2.1,
             (handleVerifyPassword derive st password tabId env).2.2)
        | _ => (.result false (some "Invalid tab"), st, false)
    | .setMasterPassword password =>
        (credResponse (handleSetMasterPassword derive st password salt).1,
         (handleSetMasterPassword derive st password salt).2, false)
    | .verifyMasterPassword password =>
        (.verify { success := handleVerifyMasterPassword derive st password, attempts := none },
         st, (StorageManager.getMasterPasswordHash st.storage).isSome)
    | .changeMasterPassword currentPassword newPassword =>
        (credResponse (handleChangeMasterPassword derive st currentPassword newPassword salt).1,
         (handleChangeMasterPassword derive st currentPassword newPassword salt).2,
         (StorageManager.getMasterPasswordHash st.storage).isSome)
    | .markTabPrivate tabId isPrivate =>
        match toggleTabPrivate st.tm tabId isPrivate env with
        | .ok tm' => (.result true none, { st with tm := tm' }, false)
        | .error e => (.errorResp e, st, false)
    | .unknown => (.errorResp "Unknown message type", st, false)

/-- One inbound request with its nondeterministic inputs. -/
structure RouterOp where
  msg : ExtMessage
  sender : MessageSender
  salt : List Nat
  env : Env

/-- Run a sequence of inbound requests, dropping the responses. -/
def runRouter (derive : String → List Nat → Nat → Option (List Nat))
    (runtimeId : String) (st : HandlerState) (ops : List RouterOp) : HandlerState :=
  ops.foldl (fun s op => (handleMessage derive runtimeId s op.msg op.sender op.salt op.env).2.1) st

/-- Initial handler state: no attempts, no credential, fresh engine. -/
def initHandlerState : HandlerState :=
  { passwordAttempts := fun _ => none
    storage := { masterPasswordHash := none }
    tm := initState }

/-! ## Concrete sample data used by witnesses and counterexamples -/

/-- Default-like settings with auto-lock and lock-on-switch enabled. -/
def sampleSettings : Settings :=
  { lockingEnabled := true
    autoLockTimeout := 5
    lockOnTabSwitch := true
    showNotifications := true
    incognitoMode := .normal
    privateMode := false
    whitelistedUrls := [] }

/-- Tab oracle: every tab exists, is a normal tab on a fixed URL. -/
def sampleTabs : Nat → Option ChromeTab :=
  fun _ => some { url := some "https://x.com/a", title := some "T", incognito := false }

/-- Sample environment at timestamp 1000. -/
def sampleEnv : Env :=
  { settings := sampleSettings, tabs := sampleTabs, now := 1000 }

/-- Settings with the `lockingEnabled` master switch off (and no
auto-lock timer noise). -/
def offSettings : Settings :=
  { sampleSettings with lockingEnabled := false, autoLockTimeout := 0 }

/-- Environment with `lockingEnabled` off. -/
def offEnv : Env :=
  { settings := offSettings, tabs := sampleTabs, now := 1000 }

/-- A concrete key-derivation function whose output depends on the
iteration count (one byte, the count modulo 256). -/
def deriveIterByte : String → List Nat → Nat → Option (List Nat) :=
  fun _ _ iters => some [iters % 256]

/-- Credential produced by `deriveIterByte` at 100000 iterations over the
one-byte salt `[0]` (whose base64 is `AA==`; 100000 mod 256 = 160 encodes
to `oA==`). -/
def sampleStored : HashedPassword :=
  { hash := "oA==", salt := "AA==", iterations := 100000 }

/-- Handler state holding `sampleStored` as credential. -/
def credHandlerState : HandlerState :=
  { initHandlerState with storage := { masterPasswordHash := some sampleStored } }

/-- Handler state rate-limited on tab 7 (five failures at time 900). -/
def lockedOutState : HandlerState :=
  { credHandlerState with
      passwordAttempts := fset (fun _ => none) 7 (some { count := 5, lastAttempt := 900 }) }

/-- A sender that passes source validation (extension page URL). -/
def sampleSender : MessageSender :=
  { id := some "ext"
    url := some "chrome-extension://ext/popup.html"
    tab := some { id := some 7 }
    frameId := none }

/-- Operation list: mark tab 1 private, then unlock it. -/
def markUnlockOps : List TMOp :=
  [.toggle 1 true sampleEnv, .unlock 1 sampleEnv]

/-- Operation list: mark tab 1 private, unlock it, then the activation
event fires with `lockOnTabSwitch` enabled. -/
def markUnlockActivateOps : List TMOp :=
  markUnlockOps ++ [.activated 1 sampleEnv]

/-- Operation list under `offEnv`: mark tab 1 private, unlock it, then
`lockTab` is called even though `lockingEnabled` is `false`. -/
def offLockOps : List TMOp :=
  [.toggle 1 true offEnv, .unlock 1 offEnv, .lock 1 offEnv]

/-- The record produced by marking tab 1 private and unlocking it in
`sampleEnv`. -/
def c1SampleRec : PrivateTab :=
  { id := 1, url := "https://x.com/a", title := "T", isLocked := false,
    markedAt := 1000, lastUnlocked := some 1000 }

/-! # Theorems -/

theorem fset_same {α : Type} (m : Nat → Option α) (k : Nat) (v : Option α) :
    fset m k v k = v := by
  simp [fset]

theorem fset_other {α : Type} (m : Nat → Option α) (k k' : Nat) (v : Option α)
    (h : k' ≠ k) : fset m k v k' = m k' := by
  simp [fset, h]

/-! ## C6: CryptoService.verify and the iterations argument -/

/-- C6 counterexample: the claim says `verify` re-derives with the stored
iteration count passed as an argument.  The code ignores that argument
(`_iterations`) and re-derives with the fixed constant: with a derivation
function that depends on the iteration count, a credential derived at
50000 iterations fails to verify even though the spec-words verifier
accepts it. -/
theorem c6_counterexample :
    CryptoService.verifyPassword deriveIterByte "pw" "UA==" "AA==" 50000 = false ∧
    CryptoService.verifyPasswordSpecModel deriveIterByte "pw" "UA==" "AA==" 50000 = true := by
  constructor <;> decide

/-- C6 amended: `verify(password, storedHash, storedSalt, iterations)`
re-derives using the stored salt and the fixed constant
`PBKDF2_ITERATIONS` — the `iterations` argument is ignored — and returns
`true` iff the encoded re-derived hash equals `storedHash`; a malformed
salt or a failing crypto call yields `false` rather than an exception. -/
theorem c6_amended (derive : String → List Nat → Nat → Option (List Nat))
    (password storedHash storedSalt : String) (i j : Nat) :
    (CryptoService.verifyPassword derive password storedHash storedSalt i =
      CryptoService.verifyPassword derive password storedHash storedSalt j) ∧
    (base64ToArrayBuffer storedSalt = none →
      CryptoService.verifyPassword derive password storedHash storedSalt i = false) ∧
    (∀ salt, base64ToArrayBuffer storedSalt = some salt →
      derive password salt PBKDF2_ITERATIONS = none →
      CryptoService.verifyPassword derive password storedHash storedSalt i = false) ∧
    (∀ salt bits, base64ToArrayBuffer storedSalt = some salt →
      derive password salt PBKDF2_ITERATIONS = some bits →
      (CryptoService.verifyPassword derive password storedHash storedSalt i = true ↔
        arrayBufferToBase64 bits = storedHash)) := by
  refine ⟨rfl, ?_, ?_, ?_⟩
  · intro h
    simp [CryptoService.verifyPassword, h]
  · intro salt hs hd
    simp [CryptoService.verifyPassword, CryptoService.hashPassword, hs, hd]
  · intro salt bits hs hd
    simp [CryptoService.verifyPassword, CryptoService.hashPassword, hs, hd]

/-- C6 amended, witnessed at the concrete credential `sampleStored`. -/
theorem c6_amended_witness :
    CryptoService.verifyPassword deriveIterByte "pw" "oA==" "AA==" 50000 = true ↔
      arrayBufferToBase64 [160] = "oA==" :=
  (c6_amended deriveIterByte "pw" "oA==" "AA==" 50000 7).2.2.2 [0] [160]
    (by decide) (by decide)

/-! ## Helper lemmas about the engine's primitive operations -/

theorem clearSessionTimer_self (s : TabManagerState) (tabId : Nat) :
    (clearSessionTimer s tabId).sessionTimers tabId = none := by
  unfold clearSessionTimer
  split
  · exact fset_same _ _ _
  · assumption

theorem savePrivateTabs_privateTabs (s : TabManagerState) :
    (savePrivateTabs s).privateTabs = s.privateTabs := rfl

theorem lockTab_noop (s : TabManagerState) (tabId : Nat)
    (h : s.privateTabs tabId = none) : lockTab s tabId = s := by
  unfold lockTab
  rw [h]

theorem lockTab_privateTabs_self (s : TabManagerState) (tabId : Nat) (pt : PrivateTab)
    (h : s.privateTabs tabId = some pt) :
    (lockTab s tabId).privateTabs tabId =
      some { pt with isLocked := true,
                     lastUnlocked := if truthyTime pt.lastUnlocked then none
                                     else pt.lastUnlocked } := by
  unfold lockTab
  rw [h]
  simp only [savePrivateTabs, clearSessionTimer]
  split
  · split <;> simp [fset_same]
  · split <;> simp [fset_same]

theorem lockTab_sessionTimers_self (s : TabManagerState) (tabId : Nat) :
    (lockTab s tabId).sessionTimers tabId = none ∨ lockTab s tabId = s := by
  unfold lockTab
  cases h : s.privateTabs tabId with
  | none => exact Or.inr rfl
  | some pt =>
      left
      simp only [savePrivateTabs]
      exact clearSessionTimer_self _ tabId

/-! ## C2: verifyPassword rate limiting and outcome handling -/

/-- C2: when the per-tab counter has `count >= 5` and less than five
minutes have passed since `lastAttempt`, `handleVerifyPassword` returns
`success := false` with the current count, changes nothing, and does not
invoke the credential verifier; otherwise, with a stored credential, the
verifier runs: success clears the counter and unlocks the tab, failure
increments the counter, stamps the time, and returns the new count. -/
theorem c2_verifyPassword (derive : String → List Nat → Nat → Option (List Nat))
    (st : HandlerState) (password : String) (tabId : Nat) (env : Env) :
    (((st.passwordAttempts tabId).getD ⟨0, 0⟩).count ≥ 5 ∧
        env.now - ((st.passwordAttempts tabId).getD ⟨0, 0⟩).lastAttempt < 300000 →
      handleVerifyPassword derive st password tabId env =
        ({ success := false, attempts := some ((st.passwordAttempts tabId).getD ⟨0, 0⟩).count },
         st, false)) ∧
    (∀ stored,
      ¬(((st.passwordAttempts tabId).getD ⟨0, 0⟩).count ≥ 5 ∧
          env.now - ((st.passwordAttempts tabId).getD ⟨0, 0⟩).lastAttempt < 300000) →
      StorageManager.getMasterPasswordHash st.storage = some stored →
      (CryptoService.verifyPassword derive password stored.hash stored.salt stored.iterations = true →
        handleVerifyPassword derive st password tabId env =
          ({ success := true, attempts := none },
           { st with passwordAttempts := fset st.passwordAttempts tabId none,
                     tm := unlockTab st.tm tabId env },
           true)) ∧
      (CryptoService.verifyPassword derive password stored.hash stored.salt stored.iterations = false →
        handleVerifyPassword derive st password tabId env =
          ({ success := false,
             attempts := some (((st.passwordAttempts tabId).getD ⟨0, 0⟩).count + 1) },
           { st with passwordAttempts := fset st.passwordAttempts tabId (some { count := ((st.passwordAttempts tabId).getD ⟨0, 0⟩).count + 1, lastAttempt := env.now }) },
           true))) := by
  constructor
  · intro h
    simp only [handleVerifyPassword, MAX_PASSWORD_ATTEMPTS, LOCKOUT_DURATION_MS]
    rw [if_pos h]
  · intro stored hno hsome
    constructor <;> intro hv <;>
      simp only [handleVerifyPassword, MAX_PASSWORD_ATTEMPTS, LOCKOUT_DURATION_MS] <;>
      rw [if_neg hno, hsome] <;> simp [hv]

/-- C2 witnessed: the rate-limited state returns `attempts := 5` without
running the verifier, and the correct password against `sampleStored`
unlocks. -/
theorem c2_verifyPassword_witness :
    handleVerifyPassword deriveIterByte lockedOutState "pw" 7 sampleEnv =
      ({ success := false, attempts := some 5 }, lockedOutState, false) ∧
    handleVerifyPassword deriveIterByte credHandlerState "pw" 7 sampleEnv =
      ({ success := true, attempts := none },
       { credHandlerState with
           passwordAttempts := fset credHandlerState.passwordAttempts 7 none,
           tm := unlockTab credHandlerState.tm 7 sampleEnv },
       true) := by
  constructor
  · have h := (c2_verifyPassword deriveIterByte lockedOutState "pw" 7 sampleEnv).1 (by decide)
    simpa [lockedOutState, credHandlerState, initHandlerState, fset] using h
  · have h := ((c2_verifyPassword deriveIterByte credHandlerState "pw" 7 sampleEnv).2
      sampleStored (by decide) rfl).1 (by decide)
    simpa [credHandlerState, initHandlerState, sampleStored] using h

/-! ## C10: missing credential is not a counted attempt -/

/-- Invariant: while no credential is stored, no attempt counter exists. -/
def NoCredNoAttempts (st : HandlerState) : Prop :=
  StorageManager.getMasterPasswordHash st.storage = none → ∀ t, st.passwordAttempts t = none

theorem handleVerifyPassword_frame (derive : String → List Nat → Nat → Option (List Nat))
    (st : HandlerState) (password : String) (tabId : Nat) (env : Env) :
    (handleVerifyPassword derive st password tabId env).2.1.storage = st.storage ∧
    (StorageManager.getMasterPasswordHash st.storage = none →
      (handleVerifyPassword derive st password tabId env).2.1.passwordAttempts =
        st.passwordAttempts) := by
  simp only [handleVerifyPassword]
  split
  · exact ⟨rfl, fun _ => rfl⟩
  · split
    · exact ⟨rfl, fun _ => rfl⟩
    · rename_i stored heq
      constructor
      · split <;> rfl
      · intro hnone
        rw [heq] at hnone
        cases hnone

theorem handleSetMasterPassword_frame (derive : String → List Nat → Nat → Option (List Nat))
    (st : HandlerState) (password : String) (salt : List Nat) :
    (handleSetMasterPassword derive st password salt).2.passwordAttempts =
      st.passwordAttempts ∧
    (StorageManager.getMasterPasswordHash (handleSetMasterPassword derive st password salt).2.storage =
        none →
      StorageManager.getMasterPasswordHash st.storage = none) := by
  simp only [handleSetMasterPassword]
  split
  · exact ⟨rfl, fun h => h⟩
  · split
    · exact ⟨rfl, fun h => h⟩
    · split
      · exact ⟨rfl, fun h => h⟩
      · exact ⟨rfl, fun h => by
          simp [StorageManager.getMasterPasswordHash, StorageManager.saveMasterPasswordHash] at h⟩

theorem handleChangeMasterPassword_frame (derive : String → List Nat → Nat → Option (List Nat))
    (st : HandlerState) (currentPassword newPassword : String) (salt : List Nat) :
    (handleChangeMasterPassword derive st currentPassword newPassword salt).2.passwordAttempts =
      st.passwordAttempts ∧
    (StorageManager.getMasterPasswordHash
        (handleChangeMasterPassword derive st currentPassword newPassword salt).2.storage = none →
      StorageManager.getMasterPasswordHash st.storage = none) := by
  simp only [handleChangeMasterPassword]
  split
  · exact ⟨rfl, fun h => h⟩
  · split
    · exact ⟨rfl, fun h => h⟩
    · split
      · exact ⟨rfl, fun h => h⟩
      · exact ⟨rfl, fun h => by
          simp [StorageManager.getMasterPasswordHash, StorageManager.saveMasterPasswordHash] at h⟩

theorem handleMessage_frame (derive : String → List Nat → Nat → Option (List Nat))
    (rid : String) (st : HandlerState) (msg : ExtMessage) (sender : MessageSender)
    (salt : List Nat) (env : Env) :
    (StorageManager.getMasterPasswordHash
        (handleMessage derive rid st msg sender salt env).2.1.storage = none →
      StorageManager.getMasterPasswordHash st.storage = none) ∧
    (StorageManager.getMasterPasswordHash st.storage = none →
      (handleMessage derive rid st msg sender salt env).2.1.passwordAttempts =
        st.passwordAttempts) := by
  unfold handleMessage
  split
  · exact ⟨fun hx => hx, fun _ => rfl⟩
  · cases msg with
    | verifyPassword password =>
        rcases htab : sender.tab with _ | ⟨_ | tabId⟩
        · exact ⟨fun hx => hx, fun _ => rfl⟩
        · exact ⟨fun hx => hx, fun _ => rfl⟩
        · obtain ⟨hhash, hatt⟩ := handleVerifyPassword_frame derive st password tabId env
          exact ⟨fun hx => by rw [hhash] at hx; exact hx, fun hn => hatt hn⟩
    | setMasterPassword password =>
        obtain ⟨hatt, hhash⟩ := handleSetMasterPassword_frame derive st password salt
        exact ⟨hhash, fun _ => hatt⟩
    | verifyMasterPassword password => exact ⟨fun hx => hx, fun _ => rfl⟩
    | changeMasterPassword currentPassword newPassword =>
        obtain ⟨hatt, hhash⟩ :=
          handleChangeMasterPassword_frame derive st currentPassword newPassword salt
        exact ⟨hhash, fun _ => hatt⟩
    | markTabPrivate tabId isPrivate =>
        dsimp only
        rcases htog : toggleTabPrivate st.tm tabId isPrivate env with e | tm' <;>
          exact ⟨fun hx => hx, fun _ => rfl⟩
    | unknown => exact ⟨fun hx => hx, fun _ => rfl⟩

theorem noCred_preserved (derive : String → List Nat → Nat → Option (List Nat))
    (rid : String) (st : HandlerState) (msg : ExtMessage) (sender : MessageSender)
    (salt : List Nat) (env : Env) (h : NoCredNoAttempts st) :
    NoCredNoAttempts (handleMessage derive rid st msg sender salt env).2.1 := by
  intro hnone t
  obtain ⟨f1, f2⟩ := handleMessage_frame derive rid st msg sender salt env
  have h0 := f1 hnone
  rw [f2 h0]
  exact h h0 t

theorem runRouter_noCred (derive : String → List Nat → Nat → Option (List Nat))
    (rid : String) (ops : List RouterOp) :
    ∀ st : HandlerState, NoCredNoAttempts st →
      NoCredNoAttempts (runRouter derive rid st ops) := by
  induction ops with
  | nil => exact fun st h => h
  | cons op rest ih =>
      intro st h
      exact ih _ (noCred_preserved derive rid st op.msg op.sender op.salt op.env h)

/-- C10: in every reachable handler state with no master password hash
stored, `verifyPassword` reports `success := false` with no `attempts`
field, does not invoke the credential verifier, does not touch the
attempt counters, and does not unlock the tab. -/
theorem c10_noCredential (derive : String → List Nat → Nat → Option (List Nat))
    (rid : String) (ops : List RouterOp) (password : String) (tabId : Nat) (env : Env)
    (hnone : StorageManager.getMasterPasswordHash (runRouter derive rid initHandlerState ops).storage = none) :
    handleVerifyPassword derive (runRouter derive rid initHandlerState ops) password tabId env =
      ({ success := false, attempts := none }, runRouter derive rid initHandlerState ops,
       false) := by
  have hatt := runRouter_noCred derive rid ops initHandlerState (fun _ _ => rfl) hnone
  unfold handleVerifyPassword
  rw [hatt tabId, hnone]
  simp [MAX_PASSWORD_ATTEMPTS, LOCKOUT_DURATION_MS]

set_option maxRecDepth 4000 in
/-- C10 witnessed after a rejected password-setup request (empty password
fails validation, so no credential has been stored). -/
theorem c10_noCredential_witness :
    handleVerifyPassword deriveIterByte
      (runRouter deriveIterByte "ext" initHandlerState
        [{ msg := .setMasterPassword "", sender := sampleSender, salt := [0], env := sampleEnv }])
      "pw" 7 sampleEnv =
      ({ success := false, attempts := none },
       runRouter deriveIterByte "ext" initHandlerState
         [{ msg := .setMasterPassword "", sender := sampleSender, salt := [0], env := sampleEnv }],
       false) :=
  c10_noCredential deriveIterByte "ext"
    [{ msg := .setMasterPassword "", sender := sampleSender, salt := [0], env := sampleEnv }]
    "pw" 7 sampleEnv (by decide)

/-! ## C4: MARK_TAB_PRIVATE does not require a stored credential -/

set_option maxRecDepth 4000 in
/-- C4 counterexample: with no master password stored, a MARK_TAB_PRIVATE
request from a valid sender succeeds at the router and creates a locked
record, contradicting the claim that it must fail before any lock state
is created. -/
theorem c4_counterexample :
    StorageManager.getMasterPasswordHash initHandlerState.storage = none ∧
    (handleMessage deriveIterByte "ext" initHandlerState (.markTabPrivate 42 true)
        sampleSender [] sampleEnv).1 = .result true none ∧
    (((handleMessage deriveIterByte "ext" initHandlerState (.markTabPrivate 42 true)
        sampleSender [] sampleEnv).2.1.tm.privateTabs 42).map (fun pt => pt.isLocked)) =
      some true := by
  refine ⟨rfl, ?_, ?_⟩ <;> decide

theorem toggleMark_ok (s : TabManagerState) (tabId : Nat) (env : Env) (tab : ChromeTab)
    (ht : env.tabs tabId = some tab) (hi : tab.incognito = false) :
    toggleTabPrivate s tabId true env =
      .ok (savePrivateTabs (lockTab
        { s with privateTabs := fset s.privateTabs tabId (some
            { id := tabId, url := jsOr tab.url "", title := jsOr tab.title "Untitled",
              isLocked := true, markedAt := env.now, lastUnlocked := none }) } tabId)) := by
  unfold toggleTabPrivate
  rw [ht]
  simp [hi]

/-- C4 amended: the router applies no credential check to markPrivate;
even while no master password hash exists, a valid-sender MARK_TAB_PRIVATE
request succeeds (subject only to the incognito check) and a locked
record is created.  The route-to-password-setup gate lives in the popup
UI, above the router. -/
theorem c4_amended (derive : String → List Nat → Nat → Option (List Nat))
    (rid : String) (st : HandlerState) (sender : MessageSender) (salt : List Nat)
    (env : Env) (tabId : Nat) (tab : ChromeTab)
    (hs : isValidMessageSource rid sender = true)
    (hm : StorageManager.getMasterPasswordHash st.storage = none)
    (ht : env.tabs tabId = some tab)
    (hi : tab.incognito = false) :
    (handleMessage derive rid st (.markTabPrivate tabId true) sender salt env).1 =
      .result true none ∧
    (((handleMessage derive rid st (.markTabPrivate tabId true) sender salt env).2.1.tm.privateTabs
        tabId).map (fun pt => pt.isLocked)) = some true := by
  have hval : (!isValidMessageSource rid sender) = false := by rw [hs]; rfl
  simp only [handleMessage, hval, Bool.false_eq_true, if_false]
  rw [toggleMark_ok st.tm tabId env tab ht hi]
  dsimp only
  refine ⟨rfl, ?_⟩
  rw [savePrivateTabs_privateTabs]
  rw [lockTab_privateTabs_self _ tabId _ (fset_same _ _ _)]
  rfl

set_option maxRecDepth 4000 in
/-- C4 amended, witnessed on the concrete no-credential state. -/
theorem c4_amended_witness :
    (handleMessage deriveIterByte "ext" initHandlerState (.markTabPrivate 42 true)
        sampleSender [] sampleEnv).1 = .result true none ∧
    (((handleMessage deriveIterByte "ext" initHandlerState (.markTabPrivate 42 true)
        sampleSender [] sampleEnv).2.1.tm.privateTabs 42).map (fun pt => pt.isLocked)) =
      some true :=
  c4_amended deriveIterByte "ext" initHandlerState sampleSender [] sampleEnv 42
    { url := some "https://x.com/a", title := some "T", incognito := false }
    (by decide) rfl (by decide) rfl

/-! ## C5: lock ignores the lockingEnabled switch -/

/-- C5 counterexample: with `lockingEnabled = false`, `lockTab` on an
unlocked private tab is not a no-op — the record flips to locked. -/
theorem c5_counterexample :
    offEnv.settings.lockingEnabled = false ∧
    ((run initState [.toggle 1 true offEnv, .unlock 1 offEnv]).privateTabs 1).map
        (fun pt => pt.isLocked) = some false ∧
    ((run initState offLockOps).privateTabs 1).map (fun pt => pt.isLocked) = some true := by
  refine ⟨rfl, ?_, ?_⟩ <;> decide

/-- C5 amended: `lock(tabId)` is a no-op exactly when no record exists
(it never consults `lockingEnabled`); otherwise it sets `isLocked`,
clears `lastUnlocked` (through a JavaScript truthiness check that leaves
a zero timestamp in place), cancels the session timer, and persists the
whole collection. -/
theorem c5_amended (s : TabManagerState) (tabId : Nat) :
    (s.privateTabs tabId = none → lockTab s tabId = s) ∧
    (∀ pt, s.privateTabs tabId = some pt →
      (lockTab s tabId).privateTabs tabId =
        some { pt with isLocked := true,
                       lastUnlocked := if truthyTime pt.lastUnlocked then none
                                       else pt.lastUnlocked } ∧
      (lockTab s tabId).sessionTimers tabId = none ∧
      (lockTab s tabId).saved = (lockTab s tabId).privateTabs) := by
  constructor
  · exact lockTab_noop s tabId
  · intro pt h
    refine ⟨lockTab_privateTabs_self s tabId pt h, ?_, ?_⟩
    · unfold lockTab
      rw [h]
      exact clearSessionTimer_self _ tabId
    · unfold lockTab
      rw [h]
      rfl

/-- C5 amended, witnessed on the concrete state of the counterexample. -/
theorem c5_amended_witness :
    (lockTab (run initState [.toggle 1 true offEnv, .unlock 1 offEnv]) 1).privateTabs 1 =
      some { id := 1, url := "https://x.com/a", title := "T", isLocked := true,
             markedAt := 1000, lastUnlocked := none } ∧
    (lockTab (run initState [.toggle 1 true offEnv, .unlock 1 offEnv]) 1).sessionTimers 1 =
      none := by
  have h := ((c5_amended (run initState [.toggle 1 true offEnv, .unlock 1 offEnv]) 1).2
    { id := 1, url := "https://x.com/a", title := "T", isLocked := false,
      markedAt := 1000, lastUnlocked := some 1000 } (by decide))
  exact ⟨by rw [h.1]; rfl, h.2.1⟩

/-! ## C3: tab activation immediately after unlock -/

/-- C3 counterexample: with `lockOnTabSwitch` enabled, an activation
event arriving right after `unlockTab` completes re-locks the tab — the
unlocked state is exactly what makes the activation handler lock it. -/
theorem c3_counterexample :
    sampleEnv.settings.lockOnTabSwitch = true ∧
    ((run initState markUnlockOps).privateTabs 1).map (fun pt => pt.isLocked) =
      some false ∧
    ((run initState markUnlockActivateOps).privateTabs 1).map (fun pt => pt.isLocked) =
      some true := by
  refine ⟨rfl, ?_, ?_⟩ <;> decide

/-- C3 amended: `handleTabActivated` locks a private tab exactly when it
is currently unlocked and `lockOnTabSwitch` is enabled — including
immediately after an unlock; it never changes the state of an
already-locked tab, of an untracked tab, or when `lockOnTabSwitch` is
disabled. -/
theorem c3_amended (s : TabManagerState) (tabId : Nat) (env : Env) :
    (s.privateTabs tabId = none → handleTabActivated s tabId env = s) ∧
    (∀ pt, s.privateTabs tabId = some pt → pt.isLocked = true →
      handleTabActivated s tabId env = s) ∧
    (∀ pt, s.privateTabs tabId = some pt → env.settings.lockOnTabSwitch = false →
      handleTabActivated s tabId env = s) ∧
    (∀ pt, s.privateTabs tabId = some pt → pt.isLocked = false →
      env.settings.lockOnTabSwitch = true →
      handleTabActivated s tabId env = lockTab s tabId ∧
      ((handleTabActivated s tabId env).privateTabs tabId).map (fun pt => pt.isLocked) =
        some true) := by
  refine ⟨?_, ?_, ?_, ?_⟩
  · intro h
    unfold handleTabActivated
    rw [h]
  · intro pt h hl
    unfold handleTabActivated
    rw [h]
    simp [hl]
  · intro pt h hsw
    unfold handleTabActivated
    rw [h]
    simp [hsw]
  · intro pt h hl hsw
    have heq : handleTabActivated s tabId env = lockTab s tabId := by
      unfold handleTabActivated
      rw [h]
      simp [hl, hsw]
    refine ⟨heq, ?_⟩
    rw [heq, lockTab_privateTabs_self s tabId pt h]
    rfl

/-- C3 amended, witnessed on the concrete post-unlock state. -/
theorem c3_amended_witness :
    handleTabActivated (run initState markUnlockOps) 1 sampleEnv =
      lockTab (run initState markUnlockOps) 1 ∧
    ((handleTabActivated (run initState markUnlockOps) 1 sampleEnv).privateTabs 1).map
        (fun pt => pt.isLocked) = some true :=
  (c3_amended (run initState markUnlockOps) 1 sampleEnv).2.2.2
    { id := 1, url := "https://x.com/a", title := "T", isLocked := false,
      markedAt := 1000, lastUnlocked := some 1000 }
    (by decide) rfl rfl

/-! ## C1: locked iff no lastUnlocked timestamp -/

/-- Record invariant: locked exactly when no `lastUnlocked` is present,
and any present timestamp is positive (`Date.now()` of a real run). -/
def RecordOk (pt : PrivateTab) : Prop :=
  (pt.isLocked = true ↔ pt.lastUnlocked = none) ∧
  ∀ t, pt.lastUnlocked = some t → 0 < t

/-- All records of the registry satisfy `RecordOk`. -/
def StateOk (s : TabManagerState) : Prop :=
  ∀ tabId pt, s.privateTabs tabId = some pt → RecordOk pt

theorem clearSessionTimer_privateTabs (s : TabManagerState) (tabId : Nat) :
    (clearSessionTimer s tabId).privateTabs = s.privateTabs := by
  unfold clearSessionTimer
  split <;> rfl

theorem startSessionTimer_privateTabs (s : TabManagerState) (tabId : Nat) (env : Env) :
    (startSessionTimer s tabId env).privateTabs = s.privateTabs := by
  simp only [startSessionTimer]
  split
  · exact clearSessionTimer_privateTabs s tabId
  · split <;> exact clearSessionTimer_privateTabs s tabId

theorem lockTab_privateTabs (s : TabManagerState) (tabId : Nat) (pt0 : PrivateTab)
    (hl : s.privateTabs tabId = some pt0) (t : Nat) :
    (lockTab s tabId).privateTabs t =
      if t = tabId then
        some { pt0 with isLocked := true,
                        lastUnlocked := if truthyTime pt0.lastUnlocked then none
                                        else pt0.lastUnlocked }
      else s.privateTabs t := by
  unfold lockTab
  rw [hl]
  simp only [savePrivateTabs, clearSessionTimer_privateTabs, fset]
  split
  · split <;> rfl
  · rfl

theorem unlockTab_privateTabs (s : TabManagerState) (tabId : Nat) (pt0 : PrivateTab)
    (env : Env) (hl : s.privateTabs tabId = some pt0) (t : Nat) :
    (unlockTab s tabId env).privateTabs t =
      if t = tabId then some { pt0 with isLocked := false, lastUnlocked := some env.now }
      else s.privateTabs t := by
  unfold unlockTab
  rw [hl]
  rw [startSessionTimer_privateTabs]
  simp only [savePrivateTabs, fset]

theorem stateOk_lockTab (s : TabManagerState) (tabId : Nat) (h : StateOk s) :
    StateOk (lockTab s tabId) := by
  intro t pt hpt
  cases hl : s.privateTabs tabId with
  | none =>
      rw [lockTab_noop s tabId hl] at hpt
      exact h t pt hpt
  | some pt0 =>
      rw [lockTab_privateTabs s tabId pt0 hl t] at hpt
      by_cases ht : t = tabId
      · rw [if_pos ht, Option.some_inj] at hpt
        subst hpt
        rcases hres : pt0.lastUnlocked with _ | k
        · simp [RecordOk, truthyTime, hres]
        · have hk : 0 < k := (h tabId pt0 hl).2 k hres
          simp [RecordOk, truthyTime, hres, Nat.pos_iff_ne_zero.mp hk]
      · rw [if_neg ht] at hpt
        exact h t pt hpt

theorem stateOk_savePrivateTabs (s : TabManagerState) (h : StateOk s) :
    StateOk (savePrivateTabs s) := h

theorem stateOk_unlockTab (s : TabManagerState) (tabId : Nat) (env : Env)
    (hnow : 0 < env.now) (h : StateOk s) : StateOk (unlockTab s tabId env) := by
  intro t pt hpt
  cases hl : s.privateTabs tabId with
  | none =>
      unfold unlockTab at hpt
      rw [hl] at hpt
      exact h t pt hpt
  | some pt0 =>
      rw [unlockTab_privateTabs s tabId pt0 env hl t] at hpt
      by_cases ht : t = tabId
      · rw [if_pos ht, Option.some_inj] at hpt
        subst hpt
        refine ⟨by simp, ?_⟩
        intro k hk
        simp only [Option.some_inj] at hk
        omega
      · rw [if_neg ht] at hpt
        exact h t pt hpt

theorem stateOk_toggleTabPrivateRun (s : TabManagerState) (tabId : Nat) (isPrivate : Bool)
    (env : Env) (hnow : 0 < env.now) (h : StateOk s) :
    StateOk (toggleTabPrivateRun s tabId isPrivate env) := by
  unfold toggleTabPrivateRun toggleTabPrivate
  cases isPrivate with
  | false =>
      simp only [Bool.false_eq_true, if_false]
      intro t pt hpt
      simp only [savePrivateTabs, clearSessionTimer_privateTabs, fset] at hpt
      by_cases ht : t = tabId
      · rw [if_pos ht] at hpt
        cases hpt
      · rw [if_neg ht] at hpt
        exact h t pt hpt
  | true =>
      simp only [if_true]
      cases htab : env.tabs tabId with
      | none => exact h
      | some tab =>
          dsimp only
          by_cases hcond :
            (tab.incognito && env.settings.incognitoMode == IncognitoMode.disabled) = true
          · rw [if_pos hcond]
            exact h
          · rw [if_neg hcond]
            apply stateOk_savePrivateTabs
            apply stateOk_lockTab
            intro t pt hpt
            simp only [fset] at hpt
            by_cases ht : t = tabId
            · rw [if_pos ht, Option.some_inj] at hpt
              subst hpt
              exact ⟨by simp, by simp⟩
            · rw [if_neg ht] at hpt
              exact h t pt hpt

theorem stateOk_handleTabActivated (s : TabManagerState) (tabId : Nat) (env : Env)
    (h : StateOk s) : StateOk (handleTabActivated s tabId env) := by
  unfold handleTabActivated
  split
  · split
    · exact stateOk_lockTab s tabId h
    · exact h
  · exact h

theorem stateOk_handleTabRemoved (s : TabManagerState) (tabId : Nat) (h : StateOk s) :
    StateOk (handleTabRemoved s tabId) := by
  unfold handleTabRemoved
  split
  · intro t pt hpt
    rw [clearSessionTimer_privateTabs] at hpt
    simp only [savePrivateTabs, fset] at hpt
    by_cases ht : t = tabId
    · rw [if_pos ht] at hpt
      cases hpt
    · rw [if_neg ht] at hpt
      exact h t pt hpt
  · exact h

theorem stateOk_handleTabUpdated (s : TabManagerState) (tabId : Nat) (tab : ChromeTab)
    (h : StateOk s) : StateOk (handleTabUpdated s tabId tab) := by
  unfold handleTabUpdated
  cases hl : s.privateTabs tabId with
  | none => exact h
  | some pt0 =>
      dsimp only
      have h1 : StateOk { s with privateTabs := fset s.privateTabs tabId (some { pt0 with url := jsOr tab.url pt0.url, title := jsOr tab.title pt0.title }) } := by
        intro t pt hpt
        simp only [fset] at hpt
        by_cases ht : t = tabId
        · rw [if_pos ht, Option.some_inj] at hpt
          subst hpt
          exact ⟨(h tabId pt0 hl).1, (h tabId pt0 hl).2⟩
        · rw [if_neg ht] at hpt
          exact h t pt hpt
      split
      · exact stateOk_lockTab _ tabId (stateOk_savePrivateTabs _ h1)
      · exact stateOk_savePrivateTabs _ h1

theorem stateOk_fireTimerBody (s : TabManagerState) (tabId : Nat) (h : StateOk s) :
    StateOk (fireTimerBody s tabId) := by
  unfold fireTimerBody
  intro t pt
  dsimp only
  split
  · split
    · exact fun hpt => h t pt hpt
    · exact fun hpt => stateOk_lockTab _ _ h t pt hpt
  · exact fun hpt => h t pt hpt

theorem stateOk_fireTimer (s : TabManagerState) (timerId : Nat) (h : StateOk s) :
    StateOk (fireTimer s timerId) := by
  unfold fireTimer
  split
  · exact h
  · exact stateOk_fireTimerBody _ _ h

theorem stateOk_step (s : TabManagerState) (op : TMOp) (hnow : 0 < op.env.now)
    (h : StateOk s) : StateOk (step s op) := by
  cases op with
  | toggle tabId isPrivate env => exact stateOk_toggleTabPrivateRun s tabId isPrivate env hnow h
  | lock tabId env => exact stateOk_lockTab s tabId h
  | unlock tabId env => exact stateOk_unlockTab s tabId env hnow h
  | activated tabId env => exact stateOk_handleTabActivated s tabId env h
  | updated tabId tab env => exact stateOk_handleTabUpdated s tabId tab h
  | removed tabId env => exact stateOk_handleTabRemoved s tabId h
  | fire timerId env => exact stateOk_fireTimer s timerId h

theorem stateOk_run (ops : List TMOp) :
    ∀ s : TabManagerState, (∀ op ∈ ops, 0 < op.env.now) → StateOk s →
      StateOk (run s ops) := by
  induction ops with
  | nil => exact fun s _ h => h
  | cons op rest ih =>
      intro s hpos h
      exact ih (step s op) (fun o ho => hpos o (List.mem_cons_of_mem op ho))
        (stateOk_step s op (hpos op (List.mem_cons_self op rest)) h)

/-- C1: along every operation sequence of the engine (with the
timestamps of a real run, which are positive), every reachable record
satisfies `isLocked = true` iff `lastUnlocked` is absent. -/
theorem c1_invariant (ops : List TMOp) (hpos : ∀ op ∈ ops, 0 < op.env.now)
    (tabId : Nat) (pt : PrivateTab)
    (h : (run initState ops).privateTabs tabId = some pt) :
    pt.isLocked = true ↔ pt.lastUnlocked = none :=
  ((stateOk_run ops initState hpos (fun _ _ hx => by cases hx)) tabId pt h).1

/-! ## C9: at most one session timer per tab -/

/-- Timer bookkeeping invariant: every pending callback's handle is below
the fresh-handle counter and equals the handle stored for its tab, and
pending handles are pairwise distinct. -/
def TimersOk (s : TabManagerState) : Prop :=
  (∀ p ∈ s.pendingTimers, p.1 < s.nextTimerId ∧ s.sessionTimers p.2 = some p.1) ∧
  (s.pendingTimers.map Prod.fst).Nodup

theorem timersOk_of_fields (s s' : TabManagerState)
    (hp : s'.pendingTimers = s.pendingTimers) (hs : s'.sessionTimers = s.sessionTimers)
    (hn : s'.nextTimerId = s.nextTimerId) (h : TimersOk s) : TimersOk s' := by
  obtain ⟨h1, h2⟩ := h
  constructor
  · intro p hmem
    rw [hp] at hmem
    rw [hs, hn]
    exact h1 p hmem
  · rw [hp]
    exact h2

theorem timersOk_clearSessionTimer (s : TabManagerState) (tabId : Nat) (h : TimersOk s) :
    TimersOk (clearSessionTimer s tabId) := by
  obtain ⟨h1, h2⟩ := h
  unfold clearSessionTimer
  split
  · rename_i timerId heq
    constructor
    · intro p hp
      have hmem := List.mem_of_mem_filter hp
      have hpf : p.1 ≠ timerId := by simpa using List.of_mem_filter hp
      refine ⟨(h1 p hmem).1, ?_⟩
      have hne : p.2 ≠ tabId := by
        intro hcontra
        have hmap := (h1 p hmem).2
        rw [hcontra, heq] at hmap
        exact hpf (Option.some_inj.mp hmap).symm
      simp only [fset]
      rw [if_neg hne]
      exact (h1 p hmem).2
    · exact h2.sublist (List.Sublist.map _ (List.filter_sublist _))
  · exact ⟨h1, h2⟩

theorem timersOk_startSessionTimer (s : TabManagerState) (tabId : Nat) (env : Env)
    (h : TimersOk s) : TimersOk (startSessionTimer s tabId env) := by
  have hc := timersOk_clearSessionTimer s tabId h
  have hnone : (clearSessionTimer s tabId).sessionTimers tabId = none :=
    clearSessionTimer_self s tabId
  simp only [startSessionTimer]
  split
  · exact hc
  · split
    · exact hc
    · obtain ⟨h1, h2⟩ := hc
      constructor
      · intro p hp
        rcases List.mem_cons.mp hp with rfl | hmem
        · exact ⟨Nat.lt_succ_self _, by simp [fset]⟩
        · have hb := h1 p hmem
          refine ⟨Nat.lt_succ_of_lt hb.1, ?_⟩
          have hne : p.2 ≠ tabId := by
            intro hcontra
            rw [hcontra, hnone] at hb
            exact Option.noConfusion hb.2
          simp only [fset]
          rw [if_neg hne]
          exact hb.2
      · simp only [List.map_cons]
        refine List.nodup_cons.mpr ⟨?_, h2⟩
        intro hmem
        rcases List.mem_map.mp hmem with ⟨p, hp, hfst⟩
        have hlt := (h1 p hp).1
        omega

theorem timersOk_lockTab (s : TabManagerState) (tabId : Nat) (h : TimersOk s) :
    TimersOk (lockTab s tabId) := by
  unfold lockTab
  split
  · exact h
  · exact timersOk_of_fields _ _ rfl rfl rfl
      (timersOk_clearSessionTimer _ tabId (timersOk_of_fields _ _ rfl rfl rfl h))

theorem lockTab_pendingTimers_sublist (s : TabManagerState) (tabId : Nat) :
    (lockTab s tabId).pendingTimers.Sublist s.pendingTimers := by
  unfold lockTab
  split
  · exact List.Sublist.refl _
  · show (clearSessionTimer _ tabId).pendingTimers.Sublist _
    unfold clearSessionTimer
    split
    · exact List.filter_sublist _
    · exact List.Sublist.refl _

theorem timersOk_fireTimerBody (s : TabManagerState) (tabId : Nat)
    (hno : ∀ q ∈ s.pendingTimers, q.2 ≠ tabId) (h : TimersOk s) :
    TimersOk (fireTimerBody s tabId) := by
  unfold fireTimerBody
  dsimp only
  have key : ∀ s2 : TabManagerState, TimersOk s2 →
      s2.pendingTimers.Sublist s.pendingTimers →
      TimersOk { s2 with sessionTimers := fset s2.sessionTimers tabId none } := by
    intro s2 h2 hsub
    obtain ⟨h21, h22⟩ := h2
    constructor
    · intro p hp
      refine ⟨(h21 p hp).1, ?_⟩
      have hne : p.2 ≠ tabId := hno p (hsub.mem hp)
      simp only [fset]
      rw [if_neg hne]
      exact (h21 p hp).2
    · exact h22
  split
  · split
    · exact key s h (List.Sublist.refl _)
    · exact key _ (timersOk_lockTab s tabId h) (lockTab_pendingTimers_sublist s tabId)
  · exact key s h (List.Sublist.refl _)

theorem timersOk_fireTimer (s : TabManagerState) (timerId : Nat) (h : TimersOk s) :
    TimersOk (fireTimer s timerId) := by
  obtain ⟨h1, h2⟩ := h
  unfold fireTimer
  split
  · exact ⟨h1, h2⟩
  · rename_i p heq
    have hpmem : p ∈ s.pendingTimers := List.mem_of_find?_eq_some heq
    have hpid : p.1 = timerId := by simpa using List.find?_some heq
    have hone : TimersOk { s with pendingTimers := s.pendingTimers.filter (fun q => q.1 ≠ timerId) } := by
      constructor
      · intro q hq
        exact h1 q (List.mem_of_mem_filter hq)
      · exact h2.sublist (List.Sublist.map _ (List.filter_sublist _))
    apply timersOk_fireTimerBody _ _ _ hone
    intro q hq hcontra
    have hqmem := List.mem_of_mem_filter hq
    have hqf : q.1 ≠ timerId := by simpa using List.of_mem_filter hq
    have e1 := (h1 q hqmem).2
    have e2 := (h1 p hpmem).2
    rw [hcontra] at e1
    rw [e2] at e1
    exact hqf ((Option.some_inj.mp e1).symm.trans hpid)

theorem timersOk_toggleTabPrivateRun (s : TabManagerState) (tabId : Nat) (isPrivate : Bool)
    (env : Env) (h : TimersOk s) : TimersOk (toggleTabPrivateRun s tabId isPrivate env) := by
  unfold toggleTabPrivateRun toggleTabPrivate
  cases isPrivate with
  | false =>
      simp only [Bool.false_eq_true, if_false]
      exact timersOk_of_fields _ _ rfl rfl rfl (timersOk_clearSessionTimer s tabId h)
  | true =>
      simp only [if_true]
      cases htab : env.tabs tabId with
      | none => exact h
      | some tab =>
          dsimp only
          by_cases hcond :
            (tab.incognito && env.settings.incognitoMode == IncognitoMode.disabled) = true
          · rw [if_pos hcond]
            exact h
          · rw [if_neg hcond]
            exact timersOk_of_fields _ _ rfl rfl rfl
              (timersOk_lockTab _ tabId (timersOk_of_fields _ _ rfl rfl rfl h))

theorem timersOk_handleTabActivated (s : TabManagerState) (tabId : Nat) (env : Env)
    (h : TimersOk s) : TimersOk (handleTabActivated s tabId env) := by
  unfold handleTabActivated
  split
  · split
    · exact timersOk_lockTab s tabId h
    · exact h
  · exact h

theorem timersOk_handleTabRemoved (s : TabManagerState) (tabId : Nat) (h : TimersOk s) :
    TimersOk (handleTabRemoved s tabId) := by
  unfold handleTabRemoved
  split
  · exact timersOk_clearSessionTimer _ tabId (timersOk_of_fields _ _ rfl rfl rfl h)
  · exact h

theorem timersOk_handleTabUpdated (s : TabManagerState) (tabId : Nat) (tab : ChromeTab)
    (h : TimersOk s) : TimersOk (handleTabUpdated s tabId tab) := by
  unfold handleTabUpdated
  split
  · exact h
  · dsimp only
    split
    · exact timersOk_lockTab _ tabId (timersOk_of_fields _ _ rfl rfl rfl h)
    · exact timersOk_of_fields _ _ rfl rfl rfl h

theorem timersOk_unlockTab (s : TabManagerState) (tabId : Nat) (env : Env)
    (h : TimersOk s) : TimersOk (unlockTab s tabId env) := by
  unfold unlockTab
  split
  · exact h
  · exact timersOk_startSessionTimer _ tabId env (timersOk_of_fields _ _ rfl rfl rfl h)

theorem timersOk_step (s : TabManagerState) (op : TMOp) (h : TimersOk s) :
    TimersOk (step s op) := by
  cases op with
  | toggle tabId isPrivate env => exact timersOk_toggleTabPrivateRun s tabId isPrivate env h
  | lock tabId env => exact timersOk_lockTab s tabId h
  | unlock tabId env => exact timersOk_unlockTab s tabId env h
  | activated tabId env => exact timersOk_handleTabActivated s tabId env h
  | updated tabId tab env => exact timersOk_handleTabUpdated s tabId tab h
  | removed tabId env => exact timersOk_handleTabRemoved s tabId h
  | fire timerId env => exact timersOk_fireTimer s timerId h

theorem timersOk_run (ops : List TMOp) :
    ∀ s : TabManagerState, TimersOk s → TimersOk (run s ops) := by
  induction ops with
  | nil => exact fun s h => h
  | cons op rest ih => exact fun s h => ih (step s op) (timersOk_step s op h)

theorem nodup_all_eq_length_le_one (l : List Nat) (a : Nat) (hn : l.Nodup)
    (he : ∀ x ∈ l, x = a) : l.length ≤ 1 := by
  match l with
  | [] => simp
  | [_] => simp
  | x :: y :: rest =>
      exfalso
      have hx : x = a := he x (List.mem_cons_self _ _)
      have hy : y = a := he y (List.mem_cons_of_mem _ (List.mem_cons_self _ _))
      have : x ∉ y :: rest := (List.nodup_cons.mp hn).1
      exact this (by rw [hx, hy]; exact List.mem_cons_self _ _)

theorem timersOk_atMostOne (s : TabManagerState) (h : TimersOk s) (t : Nat) :
    (s.pendingTimers.filter (fun p => p.2 = t)).length ≤ 1 := by
  obtain ⟨h1, h2⟩ := h
  cases hmap : s.sessionTimers t with
  | none =>
      have : s.pendingTimers.filter (fun p => p.2 = t) = [] := by
        rw [List.filter_eq_nil_iff]
        intro p hp hcontra
        have hpt : p.2 = t := by simpa using hcontra
        have := (h1 p hp).2
        rw [hpt, hmap] at this
        exact Option.noConfusion this
      rw [this]
      simp
  | some theId =>
      have hlen : ((s.pendingTimers.filter (fun p => p.2 = t)).map Prod.fst).length ≤ 1 := by
        apply nodup_all_eq_length_le_one _ theId
        · exact h2.sublist (List.Sublist.map _ (List.filter_sublist _))
        · intro x hx
          rcases List.mem_map.mp hx with ⟨p, hp, hfst⟩
          have hpt : p.2 = t := by simpa using List.of_mem_filter hp
          have hm := (h1 p (List.mem_of_mem_filter hp)).2
          rw [hpt, hmap] at hm
          rw [← hfst]
          exact (Option.some_inj.mp hm).symm
      simpa using hlen

theorem fireTimerBody_guard (s' : TabManagerState) (tabId' : Nat)
    (hlock : ∀ pt', s'.privateTabs tabId' = some pt' → pt'.isLocked = true) :
    (fireTimerBody s' tabId').privateTabs = s'.privateTabs ∧
    (fireTimerBody s' tabId').saved = s'.saved := by
  unfold fireTimerBody
  dsimp only
  cases hpt : s'.privateTabs tabId' with
  | none => exact ⟨rfl, rfl⟩
  | some pt' =>
      dsimp only
      rw [if_pos (hlock pt' hpt)]
      exact ⟨rfl, rfl⟩

/-- C9: in every reachable state at most one session-timeout callback is
pending per tab; a cancelled handle can no longer fire (the state is
untouched), and a callback firing for a tab that was locked or removed in
the meantime leaves the tab registry and the persisted snapshot
unchanged. -/
theorem c9_oneTimerPerTab (ops : List TMOp) (t : Nat) :
    ((run initState ops).pendingTimers.filter (fun p => p.2 = t)).length ≤ 1 ∧
    (∀ timerId, timerId ∉ (run initState ops).pendingTimers.map Prod.fst →
      fireTimer (run initState ops) timerId = run initState ops) ∧
    (∀ s' : TabManagerState, ∀ timerId : Nat, ∀ entry : Nat × Nat,
      s'.pendingTimers.find? (fun p => p.1 = timerId) = some entry →
      (∀ pt, s'.privateTabs entry.2 = some pt → pt.isLocked = true) →
      (fireTimer s' timerId).privateTabs = s'.privateTabs ∧
      (fireTimer s' timerId).saved = s'.saved) := by
  refine ⟨?_, ?_, ?_⟩
  · refine timersOk_atMostOne _ (timersOk_run ops initState ?_) t
    exact ⟨fun p hp => absurd hp (List.not_mem_nil p), List.nodup_nil⟩
  · intro timerId hno
    unfold fireTimer
    have hfind : (run initState ops).pendingTimers.find? (fun p => p.1 = timerId) = none := by
      rw [List.find?_eq_none]
      intro x hx hcontra
      exact hno (List.mem_map.mpr ⟨x, hx, by simpa using hcontra⟩)
    rw [hfind]
  · intro s' timerId entry hfind hlock
    unfold fireTimer
    rw [hfind]
    exact fireTimerBody_guard _ entry.2 hlock

/-- C9 witnessed: after mark-and-unlock one callback is pending for tab 1,
and a stale handle cannot fire. -/
theorem c9_oneTimerPerTab_witness :
    ((run initState markUnlockOps).pendingTimers.filter (fun p => p.2 = 1)).length ≤ 1 ∧
    fireTimer (run initState markUnlockOps) 99 = run initState markUnlockOps := by
  obtain ⟨h1, h2, h3⟩ := c9_oneTimerPerTab markUnlockOps 1
  exact ⟨h1, h2 99 (by decide)⟩

/-! ## C8: the session timer start condition on unlock -/

theorem startSessionTimer_timer_self (z : TabManagerState) (tabId : Nat) (env : Env) :
    (startSessionTimer z tabId env).sessionTimers tabId =
      if env.settings.autoLockTimeout = 0 then none
      else if shouldPreventAutoLock (clearSessionTimer z tabId) tabId env then none
      else some (clearSessionTimer z tabId).nextTimerId := by
  simp only [startSessionTimer]
  split
  · exact clearSessionTimer_self z tabId
  · split
    · exact clearSessionTimer_self z tabId
    · simp [fset]

theorem shouldPreventAutoLock_spec (z : TabManagerState) (tabId : Nat) (env : Env)
    (pt1 : PrivateTab) (h : z.privateTabs tabId = some pt1) :
    shouldPreventAutoLock z tabId env = true ↔
      (env.settings.privateMode = true ∨
       isUrlWhitelisted pt1.url env.settings.whitelistedUrls = true ∨
       ((env.tabs tabId).map ChromeTab.incognito = some true ∧
         env.settings.incognitoMode = IncognitoMode.alwaysLock) ∨
       ((env.tabs tabId).map ChromeTab.incognito = some true ∧
         env.settings.incognitoMode = IncognitoMode.disabled)) := by
  unfold shouldPreventAutoLock
  rw [h]
  cases hpm : env.settings.privateMode with
  | true => simp [*]
  | false =>
      cases hwl : isUrlWhitelisted pt1.url env.settings.whitelistedUrls with
      | true => simp [*]
      | false =>
          cases htab : env.tabs tabId with
          | none => simp [*]
          | some tab =>
              cases hinc : tab.incognito with
              | false => simp [*]
              | true => cases hmode : env.settings.incognitoMode <;> simp [*]

/-- C8: on every unlock of an existing record, a session timer exists
afterwards iff `autoLockTimeout` is nonzero and the suppression policy is
false, where suppression is: private mode on, or the record's URL matches
a whitelist glob, or the tab is incognito under `always-lock`, or the tab
is incognito under `disabled`; and the scheduled callback re-checks that
the record still exists and is still unlocked before locking. -/
theorem c8_sessionTimer (s : TabManagerState) (tabId : Nat) (env : Env) (pt : PrivateTab)
    (hl : s.privateTabs tabId = some pt) :
    ((unlockTab s tabId env).sessionTimers tabId ≠ none ↔
      (env.settings.autoLockTimeout ≠ 0 ∧
        ¬(env.settings.privateMode = true ∨
          isUrlWhitelisted pt.url env.settings.whitelistedUrls = true ∨
          ((env.tabs tabId).map ChromeTab.incognito = some true ∧
            env.settings.incognitoMode = IncognitoMode.alwaysLock) ∨
          ((env.tabs tabId).map ChromeTab.incognito = some true ∧
            env.settings.incognitoMode = IncognitoMode.disabled)))) ∧
    (∀ s' : TabManagerState, ∀ tabId' : Nat,
      (∀ pt', s'.privateTabs tabId' = some pt' → pt'.isLocked = true) →
      (fireTimerBody s' tabId').privateTabs = s'.privateTabs ∧
      (fireTimerBody s' tabId').saved = s'.saved) := by
  constructor
  · unfold unlockTab
    rw [hl]
    rw [startSessionTimer_timer_self]
    have hlook2 : (clearSessionTimer (savePrivateTabs { s with privateTabs := fset s.privateTabs tabId (some { pt with isLocked := false, lastUnlocked := some env.now }) }) tabId).privateTabs tabId = some { pt with isLocked := false, lastUnlocked := some env.now } := by
      rw [clearSessionTimer_privateTabs]
      simp [savePrivateTabs, fset]
    by_cases h0 : env.settings.autoLockTimeout = 0
    · rw [if_pos h0]
      simp [h0]
    · rw [if_neg h0]
      by_cases hP : shouldPreventAutoLock (clearSessionTimer (savePrivateTabs { s with privateTabs := fset s.privateTabs tabId (some { pt with isLocked := false, lastUnlocked := some env.now }) }) tabId) tabId env = true
      · rw [if_pos hP]
        have hd := (shouldPreventAutoLock_spec _ _ _ _ hlook2).mp hP
        simp only [ne_eq, not_true_eq_false, false_iff, not_and, not_not]
        exact fun _ => hd
      · rw [if_neg hP]
        have hnd := fun hd => hP ((shouldPreventAutoLock_spec _ _ _ _ hlook2).mpr hd)
        simp only [ne_eq, reduceCtorEq, not_false_eq_true, true_iff]
        exact ⟨h0, hnd⟩
  · intro s' tabId' hlock
    exact fireTimerBody_guard s' tabId' hlock

/-- C8 witnessed: unlocking the freshly marked tab 1 in `sampleEnv`
(timeout 5, nothing suppressed) starts a timer. -/
theorem c8_sessionTimer_witness :
    (unlockTab (run initState [.toggle 1 true sampleEnv]) 1 sampleEnv).sessionTimers 1 ≠
      none :=
  (c8_sessionTimer (run initState [.toggle 1 true sampleEnv]) 1 sampleEnv
      { id := 1, url := "https://x.com/a", title := "T", isLocked := true,
        markedAt := 1000, lastUnlocked := none }
      (by decide)).1.mpr (by decide)

/-- C1 witnessed on the mark-then-unlock run: the reachable record is
unlocked and carries a timestamp. -/
theorem c1_invariant_witness :
    (run initState markUnlockOps).privateTabs 1 = some c1SampleRec ∧
    (c1SampleRec.isLocked = true ↔ c1SampleRec.lastUnlocked = none) :=
  ⟨by decide,
   c1_invariant markUnlockOps
     (by
       intro op hop
       simp only [markUnlockOps, List.mem_cons, List.not_mem_nil, or_false] at hop
       rcases hop with rfl | rfl <;> decide)
     1 c1SampleRec (by decide)⟩

/-! ## C7: glob-to-regex conversion vs the spec's glob semantics -/

theorem replacePlaceholder_cons_ne (c : Char) (l : List Char) (h : c = '_' → False) :
    replacePlaceholder (c :: l) = c :: replacePlaceholder l := by
  rw [replacePlaceholder.eq_2, if_neg]
  intro hpre
  have h2 : (('_' == c) && ("__DOUBLE_STAR___".toList.isPrefixOf l)) = true := hpre
  rw [Bool.and_eq_true] at h2
  exact h (beq_iff_eq.mp h2.1).symm

theorem replacePlaceholder_placeholder (l : List Char) :
    replacePlaceholder (doubleStarPlaceholder ++ l) = '.' :: '*' :: replacePlaceholder l := by
  have hpre : doubleStarPlaceholder.isPrefixOf ('_' :: ("__DOUBLE_STAR___".toList ++ l)) = true :=
    List.isPrefixOf_iff_prefix.mpr (List.prefix_append _ _)
  have e : doubleStarPlaceholder ++ l = '_' :: ("__DOUBLE_STAR___".toList ++ l) := rfl
  have e2 : List.drop 16 ("__DOUBLE_STAR___".toList ++ l) = l := by
    have e3 : ("__DOUBLE_STAR___".toList : List Char).length = 16 := rfl
    rw [← e3, List.drop_left]
  rw [e, replacePlaceholder.eq_2, if_pos hpre, e2]

theorem replaceStar_append (A B : List Char) (h : ∀ c ∈ A, c = '*' → False) :
    replaceStar (A ++ B) = A ++ replaceStar B := by
  induction A with
  | nil => rfl
  | cons a A ih =>
      rw [List.cons_append, replaceStar.eq_3 a _ (h a (List.mem_cons_self a A)),
        ih (fun c hc => h c (List.mem_cons_of_mem a hc)), List.cons_append]

theorem replaceDoubleStar_cons_ne (c : Char) (l : List Char) (h : c = '*' → False) :
    replaceDoubleStar (c :: l) = c :: replaceDoubleStar l :=
  replaceDoubleStar.eq_2 c l (fun _ hc _ => h hc)

theorem replaceDoubleStar_star (l : List Char) (h : ∀ q, l = '*' :: q → False) :
    replaceDoubleStar ('*' :: l) = '*' :: replaceDoubleStar l :=
  replaceDoubleStar.eq_2 '*' l (fun r _ hr => h r hr)

theorem replaceDots_not_star (p : List Char) (h : ∀ q, p = '*' :: q → False) :
    ∀ q, replaceDots p = '*' :: q → False := by
  cases p with
  | nil => intro q hq; simp [replaceDots] at hq
  | cons c l =>
      intro q hq
      by_cases hc : c = '.'
      · subst hc
        rw [replaceDots.eq_2] at hq
        simp at hq
      · rw [replaceDots.eq_3 c l (fun he => hc he)] at hq
        injection hq with h1 h2
        exact h l (by rw [h1])

theorem convertGlob_eq_regexStr : ∀ p : List Char, p.all okPatternChar = true →
    convertGlob p = regexStr p := by
  intro p
  induction p using regexStr.induct with
  | case1 =>
      intro _
      show replacePlaceholder (replaceStar (replaceDoubleStar (replaceDots []))) = _
      rw [show replaceStar (replaceDoubleStar (replaceDots [])) = ([] : List Char) from rfl]
      rw [replacePlaceholder.eq_1]
      rfl
  | case2 p ih =>
      intro h
      have hp : p.all okPatternChar = true := by
        simp only [List.all_cons, Bool.and_eq_true] at h; exact h.2.2
      show replacePlaceholder (replaceStar (replaceDoubleStar (replaceDots ('*' :: '*' :: p)))) = _
      rw [replaceDots.eq_3 _ _ (by decide), replaceDots.eq_3 _ _ (by decide),
        replaceDoubleStar.eq_1, replaceStar_append _ _ (by decide),
        replacePlaceholder_placeholder, regexStr.eq_2]
      exact congrArg (fun t => '.' :: '*' :: t) (ih hp)
  | case3 p hstar ih =>
      intro h
      have hp : p.all okPatternChar = true := by
        simp only [List.all_cons, Bool.and_eq_true] at h; exact h.2
      show replacePlaceholder (replaceStar (replaceDoubleStar (replaceDots ('*' :: p)))) = _
      rw [replaceDots.eq_3 _ _ (by decide),
        replaceDoubleStar_star _ (replaceDots_not_star p hstar),
        replaceStar.eq_2,
        replacePlaceholder_cons_ne _ _ (by decide),
        replacePlaceholder_cons_ne _ _ (by decide),
        replacePlaceholder_cons_ne _ _ (by decide),
        replacePlaceholder_cons_ne _ _ (by decide),
        replacePlaceholder_cons_ne _ _ (by decide),
        regexStr.eq_3 _ hstar]
      exact congrArg (fun t => '[' :: '^' :: '/' :: ']' :: '*' :: t) (ih hp)
  | case4 p ih =>
      intro h
      have hp : p.all okPatternChar = true := by
        simp only [List.all_cons, Bool.and_eq_true] at h; exact h.2
      show replacePlaceholder (replaceStar (replaceDoubleStar (replaceDots ('.' :: p)))) = _
      rw [replaceDots.eq_2,
        replaceDoubleStar_cons_ne _ _ (by decide),
        replaceDoubleStar_cons_ne _ _ (by decide),
        replaceStar.eq_3 _ _ (by decide),
        replaceStar.eq_3 _ _ (by decide),
        replacePlaceholder_cons_ne _ _ (by decide),
        replacePlaceholder_cons_ne _ _ (by decide),
        regexStr.eq_4]
      exact congrArg (fun t => '\\' :: '.' :: t) (ih hp)
  | case5 c p hshape hstar hdot ih =>
      intro h
      have hok : okPatternChar c = true ∧ p.all okPatternChar = true := by
        simpa only [List.all_cons, Bool.and_eq_true] using h
      have hus : (c = '_') → False := by
        intro he
        rw [he] at hok
        exact absurd hok.1 (by decide)
      show replacePlaceholder (replaceStar (replaceDoubleStar (replaceDots (c :: p)))) = _
      rw [replaceDots.eq_3 _ _ hdot,
        replaceDoubleStar_cons_ne _ _ hstar,
        replaceStar.eq_3 _ _ hstar,
        replacePlaceholder_cons_ne _ _ hus,
        regexStr.eq_5 _ _ hshape hstar hdot]
      exact congrArg (fun t => c :: t) (ih hok.2)

theorem regexStr_headNotQuant : ∀ p : List Char, p.all okPatternChar = true →
    headNotQuant (regexStr p) = true := by
  intro p
  induction p using regexStr.induct with
  | case1 => intro _; rfl
  | case2 p _ => intro _; rw [regexStr.eq_2]; rfl
  | case3 p hstar _ => intro _; rw [regexStr.eq_3 _ hstar]; rfl
  | case4 p _ => intro _; rw [regexStr.eq_4]; rfl
  | case5 c p hshape hstar hdot _ =>
      intro h
      have hok : okPatternChar c = true := by
        simp only [List.all_cons, Bool.and_eq_true] at h; exact h.1
      have hplus : (c = '+') → False := by
        intro he; rw [he] at hok; exact absurd hok (by decide)
      have h1 : (c == '*') = false := by simpa using hstar
      have h2 : (c == '+') = false := by simpa using hplus
      rw [regexStr.eq_5 _ _ hshape hstar hdot]
      simp [headNotQuant, h1, h2]

theorem atomAt_escape (d : Char) (rest2 : List Char) :
    atomAt ('\\' :: d :: rest2) = some (RAtom.lit d, rest2) := by
  rw [atomAt.eq_3, if_pos (by decide)]

theorem atomAt_class (rest2 : List Char) :
    atomAt ('[' :: '^' :: '/' :: ']' :: rest2) = some (RAtom.nonSlash, rest2) := by
  rw [atomAt.eq_3, if_neg (by decide), if_pos (by decide)]
  dsimp only
  rw [if_pos (by decide)]

theorem atomAt_dot (rest : List Char) :
    atomAt ('.' :: rest) = some (RAtom.anyChar, rest) := by
  cases rest with
  | nil => rfl
  | cons r rs => rw [atomAt.eq_3, if_neg (by decide), if_neg (by decide), if_pos (by decide)]

theorem atomAt_lit (c : Char) (rest : List Char) (h1 : (c == '\\') = false)
    (h2 : (c == '[') = false) (h3 : (c == '.') = false) (h4 : regexMeta c = false) :
    atomAt (c :: rest) = some (RAtom.lit c, rest) := by
  cases rest with
  | nil =>
      rw [atomAt.eq_2, if_neg (by simp [h1]), if_neg (by simp [h2]), if_neg (by simp [h3]),
        if_neg (by simp [h4])]
  | cons r rs =>
      rw [atomAt.eq_3, if_neg (by simp [h1]), if_neg (by simp [h2]), if_neg (by simp [h3]),
        if_neg (by simp [h4])]

theorem quantAt_star (rest : List Char) : quantAt ('*' :: rest) = (RQuant.star, rest) := by
  rw [quantAt.eq_2, if_pos (by decide)]

theorem quantAt_none (l : List Char) (h : headNotQuant l = true) : quantAt l = (RQuant.one, l) := by
  cases l with
  | nil => rfl
  | cons r rs =>
      have h2 : ¬r = '*' ∧ ¬r = '+' := by simpa [headNotQuant] using h
      rw [quantAt.eq_2, if_neg (by simp [h2.1]), if_neg (by simp [h2.2])]

theorem parseRegexF_step (fuel : Nat) (c : Char) (rest : List Char) (a : RAtom)
    (rem : List Char) (q : RQuant) (rem2 : List Char)
    (ha : atomAt (c :: rest) = some (a, rem)) (hq : quantAt rem = (q, rem2)) :
    parseRegexF (Nat.succ fuel) (c :: rest) = (fun as => (a, q) :: as) <$> parseRegexF fuel rem2 := by
  rw [parseRegexF.eq_3, ha]
  dsimp only
  rw [hq]

theorem parseRegexF_regexStr : ∀ p : List Char, ∀ fuel : Nat, p.all okPatternChar = true →
    (regexStr p).length ≤ fuel → parseRegexF fuel (regexStr p) = some (globAtoms p) := by
  intro p
  induction p using regexStr.induct with
  | case1 =>
      intro fuel _ _
      rw [show regexStr [] = ([] : List Char) from rfl, parseRegexF.eq_1]
      rfl
  | case2 p ih =>
      intro fuel h hfuel
      have hp : p.all okPatternChar = true := by
        simp only [List.all_cons, Bool.and_eq_true] at h; exact h.2.2
      rw [regexStr.eq_2] at hfuel ⊢
      cases fuel with
      | zero => simp at hfuel
      | succ f =>
          rw [parseRegexF_step f '.' ('*' :: regexStr p) RAtom.anyChar ('*' :: regexStr p)
            RQuant.star (regexStr p) (atomAt_dot _) (quantAt_star _)]
          rw [ih f hp (by simp only [List.length_cons] at hfuel ⊢; omega)]
          rw [globAtoms.eq_2]
          rfl
  | case3 p hstar ih =>
      intro fuel h hfuel
      have hp : p.all okPatternChar = true := by
        simp only [List.all_cons, Bool.and_eq_true] at h; exact h.2
      rw [regexStr.eq_3 _ hstar] at hfuel ⊢
      cases fuel with
      | zero => simp at hfuel
      | succ f =>
          rw [parseRegexF_step f '[' ('^' :: '/' :: ']' :: '*' :: regexStr p) RAtom.nonSlash
            ('*' :: regexStr p) RQuant.star (regexStr p) (atomAt_class _) (quantAt_star _)]
          rw [ih f hp (by simp only [List.length_cons] at hfuel ⊢; omega)]
          rw [globAtoms.eq_3 _ hstar]
          rfl
  | case4 p ih =>
      intro fuel h hfuel
      have hp : p.all okPatternChar = true := by
        simp only [List.all_cons, Bool.and_eq_true] at h; exact h.2
      rw [regexStr.eq_4] at hfuel ⊢
      cases fuel with
      | zero => simp at hfuel
      | succ f =>
          rw [parseRegexF_step f '\\' ('.' :: regexStr p) (RAtom.lit '.') (regexStr p)
            RQuant.one (regexStr p) (atomAt_escape _ _) (quantAt_none _ (regexStr_headNotQuant p hp))]
          rw [ih f hp (by simp only [List.length_cons] at hfuel ⊢; omega)]
          rw [globAtoms.eq_4 _ _ (fun _ hx _ => absurd hx (by decide)) (by decide)]
          rfl
  | case5 c p hshape hstar hdot ih =>
      intro fuel h hfuel
      have hok : okPatternChar c = true ∧ p.all okPatternChar = true := by
        simpa only [List.all_cons, Bool.and_eq_true] using h
      have hp : p.all okPatternChar = true := hok.2
      have hstarb : (c == '*') = false := by simpa using hstar
      have hdotb : (c == '.') = false := by simpa using hdot
      have hmeta : regexMeta c = false := by
        have h1 := hok.1
        unfold okPatternChar at h1
        rw [Bool.and_eq_true] at h1
        have h2 := h1.1
        rw [Bool.or_eq_true, Bool.or_eq_true] at h2
        rcases h2 with (hm | hm) | hm
        · simpa using hm
        · rw [beq_iff_eq] at hm; exact absurd hm hdot
        · rw [beq_iff_eq] at hm; exact absurd hm hstar
      have hbs : (c == '\\') = false := by
        have : c = '\\' → False := by
          intro he; rw [he] at hmeta; exact absurd hmeta (by decide)
        simpa using this
      have hlb : (c == '[') = false := by
        have : c = '[' → False := by
          intro he; rw [he] at hmeta; exact absurd hmeta (by decide)
        simpa using this
      rw [regexStr.eq_5 _ _ hshape hstar hdot] at hfuel ⊢
      cases fuel with
      | zero => simp at hfuel
      | succ f =>
          rw [parseRegexF_step f c (regexStr p) (RAtom.lit c) (regexStr p)
            RQuant.one (regexStr p) (atomAt_lit c _ hbs hlb hdotb hmeta)
            (quantAt_none _ (regexStr_headNotQuant p hp))]
          rw [ih f hp (by simp only [List.length_cons] at hfuel ⊢; omega)]
          rw [globAtoms.eq_4 _ _ hshape hstar]
          rfl

theorem parseRegex_regexStr (p : List Char) (h : p.all okPatternChar = true) :
    parseRegex (regexStr p) = some (globAtoms p) :=
  parseRegexF_regexStr p (regexStr p).length h (Nat.le_refl _)

theorem rmatch_globAtoms : ∀ p s : List Char, s.all (fun c => !isLineTerm c) = true →
    rmatch (globAtoms p) s = globSpecMatch p s := by
  intro p s
  induction p, s using globSpecMatch.induct with
  | case1 => intro _; rw [globAtoms.eq_1, rmatch.eq_1, globSpecMatch.eq_1]
  | case2 c s => intro _; rw [globAtoms.eq_1, rmatch.eq_2, globSpecMatch.eq_2]
  | case3 p s ih1 ih2 =>
      intro h
      rw [globAtoms.eq_2]
      cases s with
      | nil =>
          rw [rmatch.eq_5, globSpecMatch.eq_3, ih1 rfl]
      | cons c s' =>
          have hc : (!isLineTerm c) = true ∧ s'.all (fun c => !isLineTerm c) = true := by
            simpa only [List.all_cons, Bool.and_eq_true] using h
          have ih2' : s'.all (fun c => !isLineTerm c) = true →
              rmatch (globAtoms ('*' :: '*' :: p)) s' = globSpecMatch ('*' :: '*' :: p) s' := ih2
          rw [rmatch.eq_6, globSpecMatch.eq_4, ih1 h]
          rw [show atomMatches RAtom.anyChar c = !isLineTerm c from rfl, hc.1]
          rw [globAtoms.eq_2] at ih2'
          rw [ih2' hc.2]
          rw [Bool.true_and]
  | case4 p s hstar ih1 ih2 =>
      intro h
      rw [globAtoms.eq_3 _ hstar]
      cases s with
      | nil =>
          rw [rmatch.eq_5, globSpecMatch.eq_5 _ hstar, ih1 rfl]
      | cons c s' =>
          have hc : (!isLineTerm c) = true ∧ s'.all (fun c => !isLineTerm c) = true := by
            simpa only [List.all_cons, Bool.and_eq_true] using h
          have ih2' : s'.all (fun c => !isLineTerm c) = true →
              rmatch (globAtoms ('*' :: p)) s' = globSpecMatch ('*' :: p) s' := ih2
          rw [rmatch.eq_6, globSpecMatch.eq_6 _ _ _ hstar, ih1 h]
          rw [show atomMatches RAtom.nonSlash c = (c != '/') from rfl]
          rw [globAtoms.eq_3 _ hstar] at ih2'
          rw [ih2' hc.2]
  | case5 c p hshape hne =>
      intro _
      rw [globAtoms.eq_4 _ _ hshape hne, rmatch.eq_3, globSpecMatch.eq_7 _ _ hshape hne]
  | case6 c p d s hshape hne ih =>
      intro h
      have hc : (!isLineTerm d) = true ∧ s.all (fun c => !isLineTerm c) = true := by
        simpa only [List.all_cons, Bool.and_eq_true] using h
      rw [globAtoms.eq_4 _ _ hshape hne, rmatch.eq_4, globSpecMatch.eq_8 _ _ _ _ hshape hne,
        ih hc.2]
      rw [show atomMatches (RAtom.lit c) d = (c.toLower == d.toLower) from rfl]

theorem list_any_congr (l : List String) (f g : String → Bool)
    (h : ∀ a ∈ l, f a = g a) : l.any f = l.any g := by
  induction l with
  | nil => rfl
  | cons a l ih =>
      rw [List.any_cons, List.any_cons, h a (List.mem_cons_self a l),
        ih (fun b hb => h b (List.mem_cons_of_mem a hb))]

/-- C7 counterexample: the conversion escapes only `.`, so the regex
metacharacter `+` keeps its regular-expression meaning instead of being
matched literally - the pattern `a+` whitelists the URL `aa`, which the
claimed glob semantics rejects. -/
theorem c7_counterexample :
    isUrlWhitelisted "aa" ["a+"] = true ∧ globSpecMatches "aa" "a+" = false := by
  constructor
  · have h1 : convertGlob ['a', '+'] = ['a', '+'] := by
      simp [convertGlob, replaceDots, replaceDoubleStar, replaceStar, replacePlaceholder,
        doubleStarPlaceholder]
    have h2 : rmatch [(RAtom.lit 'a', RQuant.plus)] ['a', 'a'] = true := by
      simp [rmatch, atomMatches]
    have h3 : parseRegex ['a', '+'] = some [(RAtom.lit 'a', RQuant.plus)] := by decide
    simp [isUrlWhitelisted, jsRegexTest, h1, h3, h2]
  · simp [globSpecMatches, globSpecMatch]

/-- C7 amended: on patterns built only from characters that are neither
regular-expression metacharacters (other than `.` and `*`) nor `_`, and
for nonempty URLs without JavaScript line terminators, whitelist matching
agrees exactly with the spec's glob semantics (`*` any run except `/`,
`**` any run, other characters literal case-insensitive, anchored at both
ends); and a converted pattern outside the parsed regular-expression
subset never matches and never throws. -/
theorem c7_amended (url : String) (patterns : List String)
    (hurl : url ≠ "")
    (hok : ∀ pat ∈ patterns, pat.toList.all okPatternChar = true)
    (hnl : url.toList.all (fun c => !isLineTerm c) = true) :
    (isUrlWhitelisted url patterns = patterns.any (fun pat => globSpecMatches url pat)) ∧
    (∀ pat : String, parseRegex (convertGlob pat.toList) = none →
      jsRegexTest (convertGlob pat.toList) url = false) := by
  constructor
  · unfold isUrlWhitelisted
    have hne : (url == "") = false := by
      rw [beq_eq_false_iff_ne]
      exact hurl
    by_cases hemp : patterns.isEmpty = true
    · have hpe : patterns = [] := List.isEmpty_iff.mp hemp
      subst hpe
      rw [hne]
      simp
    · rw [hne, Bool.false_or]
      rw [Bool.not_eq_true] at hemp
      rw [hemp, if_neg Bool.false_ne_true]
      exact list_any_congr patterns _ _ (fun pat hpat => by
        unfold jsRegexTest globSpecMatches
        rw [convertGlob_eq_regexStr _ (hok pat hpat), parseRegex_regexStr _ (hok pat hpat)]
        exact rmatch_globAtoms _ _ hnl)
  · intro pat hp
    unfold jsRegexTest
    rw [hp]

/-- C7 amended witnessed: the glob `https://**` whitelists
`https://x.com/a` in both the source and the spec semantics. -/
theorem c7_amended_witness :
    isUrlWhitelisted "https://x.com/a" ["https://**"] =
      (["https://**"].any fun pat => globSpecMatches "https://x.com/a" pat) :=
  (c7_amended "https://x.com/a" ["https://**"] (by decide) (by decide) (by decide)).1

end PrivateTabExt
